import Mathlib

/-!
The snpr genotype parser worker (`app/workers/goParser.go`).

A shallow embedding of the line normaliser and of the catalogue
reconciliation loop of `main`, followed by theorems about them.

Modelling conventions.

* A Go `string` is modelled as the list of its characters (`Str`).  The loop
  body is modelled on the tokens that `bufio.Scanner` hands to it, one per line
  (`loop`, `run`); `scanTokens` gives those tokens for the content of a file,
  with the scanner's buffer limit, and `runFile` is the run on a file.
* The rune-level case tables behind `strings.ToLower` / `strings.ToUpper`
  belong to the Go library, not to this repository; they are a parameter
  (`CaseTables`) that is only required to agree with Go on ASCII.
* A slice index that is out of range is a run-time panic; `die` is a fatal
  exit.  Both end the run and are values of `Fatal`.
* The clock readings written to `created_at` / `updated_at` are left out of
  the modelled statements.
-/

namespace Snpr

/-- A Go string, as the sequence of its characters. -/
abbrev Str := List Char

/-- Rune-level case mappings used by `strings.ToLower` and `strings.ToUpper`.
On ASCII they are the usual letter shifts; elsewhere they are whatever the
library's Unicode tables say. -/
structure CaseTables where
  lower : Char → Char
  upper : Char → Char
  lower_ascii : ∀ c : Char, c.toNat < 128 → lower c = c.toLower
  upper_ascii : ∀ c : Char, c.toNat < 128 → upper c = c.toUpper

/-- The case tables that leave every non-ASCII character unchanged. -/
def asciiCase : CaseTables where
  lower := Char.toLower
  upper := Char.toUpper
  lower_ascii := fun _ _ => rfl
  upper_ascii := fun _ _ => rfl

/-! ## The `strings` functions used by `main` -/

/-- `strings.ToLower`. -/
def ToLower (U : CaseTables) (s : Str) : Str := s.map U.lower

/-- `strings.ToUpper`. -/
def ToUpper (U : CaseTables) (s : Str) : Str := s.map U.upper

/-- `strings.HasPrefix`. -/
def HasPrefix : Str → Str → Bool
  | _, [] => true
  | [], _ :: _ => false
  | c :: s, p :: ps => if c = p then HasPrefix s ps else false

/-- `strings.Trim(s, cutset)`: all leading and trailing characters that occur
in `cutset` are removed. -/
def Trim (s cutset : Str) : Str :=
  ((s.dropWhile (fun c => cutset.contains c)).reverse.dropWhile
    (fun c => cutset.contains c)).reverse

/-- `strings.Split(s, sep)` for a one-character separator.  The result is never
empty: a string without the separator is returned as its only element. -/
def Split : Str → Char → List Str
  | [], _ => [[]]
  | c :: s, sep =>
    if c = sep then [] :: Split s sep
    else
      match Split s sep with
      | [] => [[c]]
      | w :: ws => (c :: w) :: ws

/-- `strings.Replace(s, old, new, -1)` for a one-character `old`. -/
def Replace (s : Str) (old : Char) (new : Str) : Str :=
  s.flatMap (fun c => if c = old then new else [c])

/-- `strings.Map(mapping, s)` for a mapping that never asks to drop a
character. -/
def Map (mapping : Char → Char) (s : Str) : Str := s.map mapping

/-! ## Fatal ends of a run -/

/-- The ways the worker stops before its normal exit. -/
inductive Fatal where
  /-- run-time panic: slice index out of range -/
  | indexOutOfRange
  /-- `die("Unknown filetype in parsing")` -/
  | unknownFiletype
  /-- `die(err.Error())` after a failed `db.Exec` -/
  | storage
  deriving DecidableEq, Repr

deriving instance DecidableEq for Except

/-- `xs[i]` for a constant or non-negative index. -/
def index (xs : List Str) (i : Nat) : Except Fatal Str :=
  match xs.get? i with
  | some x => .ok x
  | none => .error .indexOutOfRange

/-- `xs[i]` for an `int` index that may be negative. -/
def indexInt (xs : List Str) (i : Int) : Except Fatal Str :=
  if i < 0 then .error .indexOutOfRange else index xs i.toNat

/-! ## Format normalisation (lines 184-275) -/

/-- The map `db_snp_snps` of `main`, in source order. -/
def db_snp_snps : List (Str × Str) :=
  [ ("MT-T3027C".toList, "rs199838004".toList), ("MT-T4336C".toList, "rs41456348".toList),
    ("MT-G4580A".toList, "rs28357975".toList), ("MT-T5004C".toList, "rs41419549".toList),
    ("MT-C5178a".toList, "rs28357984".toList), ("MT-A5390G".toList, "rs41333444".toList),
    ("MT-C6371T".toList, "rs41366755".toList), ("MT-G8697A".toList, "rs28358886".toList),
    ("MT-G9477A".toList, "rs2853825".toList), ("MT-G10310A".toList, "rs41467651".toList),
    ("MT-A10550G".toList, "rs28358280".toList), ("MT-C10873T".toList, "rs2857284".toList),
    ("MT-C11332T".toList, "rs55714831".toList), ("MT-A11947G".toList, "rs28359168".toList),
    ("MT-A12308G".toList, "rs2853498".toList), ("MT-A12612G".toList, "rs28359172".toList),
    ("MT-T14318C".toList, "rs28357675".toList), ("MT-T14766C".toList, "rs3135031".toList),
    ("MT-T14783C".toList, "rs28357680".toList) ]

/-- Map lookup `db_snp_snps[name]` with its `ok` flag. -/
def lookupAlias (table : List (Str × Str)) (name : Str) : Option Str :=
  match table with
  | [] => none
  | (k, v) :: rest => if name = k then some v else lookupAlias rest name

/-- The closure `replace_letters` of the IYG branch. -/
def replace_letters (r : Char) : Char :=
  if 'A' ≤ r ∧ r ≤ 'Z' then 'X'
  else if 'a' ≤ r ∧ r ≤ 'z' then 'X'
  else r

/-- The search loop for `genotype_index` in the VCF branch: the index of the
first element equal to `GT` or `gt`, counted from `index`, or `-1`. -/
def genotype_index : List Str → Nat → Int
  | [], _ => -1
  | element :: rest, index =>
    if element = "GT".toList ∨ element = "gt".toList then (index : Int)
    else genotype_index rest (index + 1)

/-- The loop that builds `genotype_parsed` in the VCF branch. -/
def genotype_parsed (ref alt : Str) : List Str → Str → Str
  | [], acc => acc
  | allele :: rest, acc =>
    if allele = "0".toList then genotype_parsed ref alt rest (acc ++ ref)
    else if allele = "1".toList then genotype_parsed ref alt rest (acc ++ alt)
    else genotype_parsed ref alt rest acc

/-- The `filetype` chain of the loop body (lines 186-268), applied to the
lower-cased line: `ok (some linelist)` goes on to the field assembly,
`ok none` is a `continue`.  In the VCF branch columns 3 and 4 are read before
the allele loop; they exist as soon as column 9 does. -/
def fixLinelist (U : CaseTables) (filetype line : Str) : Except Fatal (Option (List Str)) :=
  if filetype = "23andme".toList then
    .ok (some (Split line '\t'))
  else if filetype = "ancestry".toList then
    let linelist := Split line '\t'
    (index linelist 0).bind fun l0 =>
    if l0 = "rsid".toList then .ok none
    else
      (index linelist 1).bind fun l1 =>
      (index linelist 3).bind fun l3 =>
      (index linelist 4).bind fun l4 =>
      (index linelist 5).bind fun l5 =>
      .ok (some [l0, l1, l3, l4 ++ l5])
  else if filetype = "decodeme".toList then
    let linelist := Split line ','
    (index linelist 0).bind fun l0 =>
    if l0 = "name".toList then .ok none
    else
      (index linelist 2).bind fun l2 =>
      (index linelist 3).bind fun l3 =>
      (index linelist 5).bind fun l5 =>
      .ok (some [l0, l2, l3, l5])
  else if filetype = "ftdna-illumina".toList then
    let line := Replace line (Char.ofNat 34) []
    let linelist := Split line ','
    (index linelist 0).bind fun l0 =>
    if l0 = "rsid".toList then .ok none
    else .ok (some linelist)
  else if filetype = "23andme-exome-vcf".toList then
    let linelist := Split line '\t'
    (index linelist 8).bind fun l8 =>
    let format_array := Split l8 ':'
    let gi := genotype_index format_array 0
    (index linelist 9).bind fun l9 =>
    (indexInt (Split l9 ':') gi).bind fun gt =>
    let non_genotype_parsed := Split gt '/'
    (index linelist 3).bind fun l3 =>
    (index linelist 4).bind fun l4 =>
    let parsed := genotype_parsed l3 l4 non_genotype_parsed []
    (index linelist 2).bind fun l2 =>
    (index linelist 0).bind fun l0 =>
    (index linelist 1).bind fun l1 =>
    .ok (some [ToLower U l2, l0, l1, parsed])
  else if filetype = "IYG".toList then
    let linelist := Split line '\t'
    (index linelist 0).bind fun name =>
    let position := Replace (Map replace_letters name) 'X' []
    if HasPrefix name "MT".toList || HasPrefix name "mt".toList then
      let name := match lookupAlias db_snp_snps name with
        | some new_name => new_name
        | none => name
      (index linelist 1).bind fun l1 =>
      .ok (some [name, "MT".toList, position, l1])
    else
      (index linelist 0).bind fun l0 =>
      (index linelist 1).bind fun l1 =>
      .ok (some [l0, "1".toList, "1".toList, l1])
  else
    .error .unknownFiletype

/-- The canonical record assembled at lines 272-275. -/
structure Record where
  snp_name : Str
  chromosome : Str
  position : Str
  allele : Str
  deriving DecidableEq, Repr

/-- Field assembly (lines 272-275). -/
def assemble (U : CaseTables) (linelist : List Str) : Except Fatal Record :=
  (index linelist 0).bind fun snp_name =>
  (index linelist 1).bind fun l1 =>
  (index linelist 2).bind fun position =>
  (index linelist 3).bind fun l3 =>
  .ok { snp_name := snp_name, chromosome := ToUpper U l1, position := position,
        allele := ToUpper U l3 }

/-- The normaliser: the format chain followed by the field assembly, on a line
that has already been lower-cased.  `ok none` is a skipped line. -/
def normalize (U : CaseTables) (filetype line : Str) : Except Fatal (Option Record) :=
  (fixLinelist U filetype line).bind fun r =>
  match r with
  | none => .ok none
  | some linelist => (assemble U linelist).map some

/-- One scanner token up to the record (lines 179-275): the comment filter,
the trimming and lower-casing, then the normaliser. -/
def processLine (U : CaseTables) (filetype line : Str) : Except Fatal (Option Record) :=
  if HasPrefix line "#".toList then .ok none
  else normalize U filetype (ToLower U (Trim line "\n".toList))

/-! ## Reconciliation and the run (lines 159-318) -/

/-- What `main` has loaded before the loop starts: the genotype row
(`getGenotype`), and the two name snapshots (`getSNPs`, `getUserSNPs`). -/
structure Context where
  genotype_id : Str
  user_id : Str
  filetype : Str
  known_snps : List Str
  known_user_snps : List Str

/-- What the run sends to the database, and the one log line that stands for
a write that is not made. -/
inductive Event where
  /-- `db.Exec("BEGIN")` -/
  | begin
  /-- `INSERT INTO snps`, with ranking `0`, the two placeholder frequency
  texts and `user_snps_count` 1 -/
  | insertSnp (snp_name chromosome position : Str)
  /-- `INSERT INTO user_snps` -/
  | insertUserSnp (local_genotype genotype_id user_id snp_name : Str)
  /-- the log line "User-SNP ... already exists" -/
  | alreadyExists (snp_name allele : Str)
  /-- `db.Exec("COMMIT")` -/
  | commit
  /-- `VACUUM ANALYZE snps` -/
  | vacuumSnps
  /-- `VACUUM ANALYZE user_snps` -/
  | vacuumUserSnps
  deriving DecidableEq, Repr

/-- The storage collaborator: given the events so far and a statement, whether
`db.Exec` returns without error. -/
abbrev Storage := List Event → Event → Bool

/-- A storage that accepts every statement. -/
def okStorage : Storage := fun _ _ => true

/-- State of a run: the events issued so far and, once the run has died, why. -/
structure Run where
  trace : List Event
  fatal : Option Fatal
  deriving DecidableEq, Repr

/-- `db.Exec(stmt)` followed by `die` when it returns an error. -/
def exec (db : Storage) (trace : List Event) (stmt : Event) : Run :=
  { trace := trace ++ [stmt], fatal := if db trace stmt then none else some Fatal.storage }

/-- The two membership tests of one record against the snapshots (lines
276-303).  Neither map is written to anywhere in the loop. -/
def reconcile (db : Storage) (ctx : Context) (r : Record) (trace : List Event) : Run :=
  let s :=
    if r.snp_name ∈ ctx.known_snps then { trace := trace, fatal := none }
    else exec db trace (Event.insertSnp r.snp_name r.chromosome r.position)
  match s.fatal with
  | some e => { trace := s.trace, fatal := some e }
  | none =>
    if r.snp_name ∈ ctx.known_user_snps then
      { trace := s.trace ++ [Event.alreadyExists r.snp_name r.allele], fatal := none }
    else exec db s.trace (Event.insertUserSnp r.allele ctx.genotype_id ctx.user_id r.snp_name)

/-- The end of `main` after the loop (lines 306-318). -/
def finish (db : Storage) (trace : List Event) : Run :=
  if db trace Event.commit then
    { trace := trace ++ [Event.commit, Event.vacuumSnps, Event.vacuumUserSnps], fatal := none }
  else { trace := trace ++ [Event.commit], fatal := some Fatal.storage }

/-- The scanner loop (lines 178-305) followed by the end of `main`, on the
tokens the scanner delivers (for a file: `scanTokens`).  When `Scan` returns
false the loop is left, whatever the reason. -/
def loop (U : CaseTables) (db : Storage) (ctx : Context) : List Str → List Event → Run
  | [], trace => finish db trace
  | line :: rest, trace =>
    match processLine U ctx.filetype line with
    | .error e => { trace := trace, fatal := some e }
    | .ok none => loop U db ctx rest trace
    | .ok (some r) =>
      let s := reconcile db ctx r trace
      match s.fatal with
      | some e => { trace := s.trace, fatal := some e }
      | none => loop U db ctx rest s.trace

/-- The run from `BEGIN` on (lines 174-318), given the tokens the scanner
delivers; `main` does not look at the result of `BEGIN`. -/
def run (U : CaseTables) (db : Storage) (ctx : Context) (lines : List Str) : Run :=
  loop U db ctx lines [Event.begin]

/-- The six values of `filetype` that the chain knows. -/
def supportedFiletypes : List Str :=
  ["23andme".toList, "ftdna-illumina".toList, "ancestry".toList, "decodeme".toList,
   "23andme-exome-vcf".toList, "IYG".toList]

/-- The decision table of the reconciler as the specification words it: row by
whether the name is in the known-variant set (`inK`) and in the user's set
(`inU`); `I` is the global insert, `J` the user insert, `N` the no-op. -/
def decisionTable (inK inU : Bool) (I J N : Event) : List Event :=
  match inK, inU with
  | false, false => [I, J]
  | false, true => [I, N]
  | true, false => [J]
  | true, true => [N]

/-- The column a record's name is taken from, on the line the normaliser is
given: column 2 of the tab split for `23andme-exome-vcf`, column 0 of the comma
split for `decodeme`, column 0 of the comma split after the double quotes are
removed for `ftdna-illumina`, column 0 of the tab split otherwise. -/
def nameColumn (filetype line : Str) : Option Str :=
  if filetype = "23andme-exome-vcf".toList then (Split line '\t').get? 2
  else if filetype = "decodeme".toList then (Split line ',').get? 0
  else if filetype = "ftdna-illumina".toList then
    (Split (Replace line (Char.ofNat 34) []) ',').get? 0
  else (Split line '\t').get? 0

/-! ## The scanner (`bufio.NewScanner(file)`, lines 177-179) -/

/-- The constant `bufio.MaxScanTokenSize`: the size up to which the scanner's
buffer grows. -/
def MaxScanTokenSize : Nat := 64 * 1024

/-- The length of a string in bytes (`len(s)`), each character counted with its
UTF-8 size. -/
def byteLen (s : Str) : Nat := (s.map Char.utf8Size).sum

/-- The helper `dropCR` of `bufio.ScanLines`: one trailing carriage return is
removed. -/
def dropCR (data : Str) : Str :=
  if data.getLast? = some '\r' then data.dropLast else data

/-- The lines of a file's content: the pieces between newlines; nothing follows
a final newline, and an empty file has no line. -/
def rawLines (data : Str) : List Str :=
  if (Split data '\n').getLast? = some [] then (Split data '\n').dropLast else Split data '\n'

/-- The tokens `scanner.Scan()` delivers to the loop body, in order.  A line
fits the scanner's buffer when it is shorter than `MaxScanTokenSize` bytes; at
the first line that does not fit `Scan` returns false, exactly as at the end of
the file (`scanner.Err()` is never looked at), so that line and all later lines
are not delivered. -/
def scanTokens (data : Str) : List Str :=
  ((rawLines data).takeWhile (fun l => decide (byteLen l < MaxScanTokenSize))).map dropCR

/-- The run of `main` from `BEGIN` on, given the content of the input file. -/
def runFile (U : CaseTables) (db : Storage) (ctx : Context) (data : Str) : Run :=
  run U db ctx (scanTokens data)

/-- Whether an event is an `INSERT INTO snps`. -/
def isInsertSnp : Event → Bool
  | Event.insertSnp _ _ _ => true
  | _ => false

/-- Whether an event is an `INSERT INTO user_snps`. -/
def isInsertUserSnp : Event → Bool
  | Event.insertUserSnp _ _ _ _ => true
  | _ => false

/-- The plain reading of "delete every alphabetic character": keep, in order,
the characters that are neither in `A`-`Z` nor in `a`-`z`. -/
def deleteLetters (name : Str) : Str :=
  name.filter (fun c => !(decide ('A' ≤ c ∧ c ≤ 'Z') || decide ('a' ≤ c ∧ c ≤ 'z')))

/-- The columns a filetype works on: the comma split for `decodeme`, the comma
split after the double quotes are removed for `ftdna-illumina`, the tab split
otherwise. -/
def columns (filetype line : Str) : List Str :=
  if filetype = "decodeme".toList then Split line ','
  else if filetype = "ftdna-illumina".toList then Split (Replace line (Char.ofNat 34) []) ','
  else Split line '\t'

/-- The number of columns a filetype reads: 4 for `23andme` and
`ftdna-illumina`, 6 for `ancestry` and `decodeme`, 2 for `IYG`. -/
def neededColumns (filetype : Str) : Nat :=
  if filetype = "ancestry".toList ∨ filetype = "decodeme".toList then 6
  else if filetype = "IYG".toList then 2
  else 4

/-- Whether the first column is the header word of the filetype: `rsid` for
`ancestry` and `ftdna-illumina`, `name` for `decodeme`; the other filetypes
have no header row. -/
def isHeader (filetype line : Str) : Bool :=
  if filetype = "ancestry".toList ∨ filetype = "ftdna-illumina".toList then
    (columns filetype line).head? = some "rsid".toList
  else if filetype = "decodeme".toList then
    (columns filetype line).head? = some "name".toList
  else false

/-! ## The connection string (lines 321-335) -/

/-- `strings.Join(elems, sep)`. -/
def Join : List Str → Str → Str
  | [], _ => []
  | [a], _ => a
  | a :: b :: rest, sep => a ++ sep ++ Join (b :: rest) sep

/-- The slice `params` of `buildDbConnectionString` just before the join. -/
def connectionParams (username password database port : Str) : List Str :=
  let params : List Str := []
  let params := if username.length > 0 then params ++ ["user=".toList ++ username] else params
  let params := if password.length > 0 then params ++ ["password=".toList ++ password] else params
  let params := if port.length > 0 then params ++ ["port=".toList ++ port] else params
  let params := params ++ ["dbname=".toList ++ database]
  let params := params ++ ["sslmode=disable".toList]
  params

/-- The function `buildDbConnectionString`. -/
def buildDbConnectionString (username password database port : Str) : Str :=
  Join (connectionParams username password database port) " ".toList

/-- The parameter list as the claim words it: the three optional parameters
that are non-empty, in the order user, password, port, then the database name
and the SSL mode. -/
def connectionParamsSpec (username password database port : Str) : List Str :=
  (if username = [] then [] else ["user=".toList ++ username]) ++
  (if password = [] then [] else ["password=".toList ++ password]) ++
  (if port = [] then [] else ["port=".toList ++ port]) ++
  ["dbname=".toList ++ database, "sslmode=disable".toList]

/-! ## Lemmas on the string functions -/

theorem ToLower_ascii (U : CaseTables) (s : Str) (h : ∀ c ∈ s, c.toNat < 128) :
    ToLower U s = ToLower asciiCase s := by
  unfold ToLower
  apply List.map_congr_left
  intro c hc
  exact U.lower_ascii c (h c hc)

theorem ToUpper_ascii (U : CaseTables) (s : Str) (h : ∀ c ∈ s, c.toNat < 128) :
    ToUpper U s = ToUpper asciiCase s := by
  unfold ToUpper
  apply List.map_congr_left
  intro c hc
  exact U.upper_ascii c (h c hc)

/-! ## Lemmas on the loop -/

theorem processLine_comment (U : CaseTables) (filetype line : Str)
    (h : HasPrefix line "#".toList = true) : processLine U filetype line = .ok none := by
  unfold processLine
  rw [if_pos h]

theorem processLine_not_comment (U : CaseTables) (filetype line : Str)
    (h : HasPrefix line "#".toList = false) :
    processLine U filetype line = normalize U filetype (ToLower U (Trim line "\n".toList)) := by
  unfold processLine
  rw [if_neg (by rw [h]; decide)]

theorem loop_skip (U : CaseTables) (db : Storage) (ctx : Context) (line : Str)
    (rest : List Str) (trace : List Event)
    (h : processLine U ctx.filetype line = .ok none) :
    loop U db ctx (line :: rest) trace = loop U db ctx rest trace := by
  simp only [loop, h]

theorem loop_error (U : CaseTables) (db : Storage) (ctx : Context) (line : Str)
    (rest : List Str) (trace : List Event) (e : Fatal)
    (h : processLine U ctx.filetype line = .error e) :
    loop U db ctx (line :: rest) trace = { trace := trace, fatal := some e } := by
  simp only [loop, h]

theorem reconcile_no_commit (db : Storage) (ctx : Context) (r : Record) (trace : List Event)
    (h : Event.commit ∉ trace) : Event.commit ∉ (reconcile db ctx r trace).trace := by
  unfold reconcile exec
  by_cases hK : r.snp_name ∈ ctx.known_snps <;> by_cases hU : r.snp_name ∈ ctx.known_user_snps <;>
    by_cases hd : db trace (Event.insertSnp r.snp_name r.chromosome r.position) = true <;>
    simp [hK, hU, hd, h]

/-- A line on which the loop body dies ends the run without `COMMIT`, whatever
came before it. -/
theorem loop_dies_of_mem (U : CaseTables) (db : Storage) (ctx : Context) (lines : List Str) :
    ∀ trace : List Event, Event.commit ∉ trace →
      (∃ l ∈ lines, ∃ e, processLine U ctx.filetype l = .error e) →
      (loop U db ctx lines trace).fatal ≠ none ∧
        Event.commit ∉ (loop U db ctx lines trace).trace := by
  induction lines with
  | nil => intro trace _ h; simp at h
  | cons line rest ih =>
    intro trace htr hex
    cases hp : processLine U ctx.filetype line with
    | error e => rw [loop_error U db ctx line rest trace e hp]; exact ⟨by simp, htr⟩
    | ok o =>
      cases o with
      | none =>
        rw [loop_skip U db ctx line rest trace hp]
        apply ih trace htr
        obtain ⟨l, hl, e, he⟩ := hex
        rcases List.mem_cons.mp hl with rfl | hl
        · rw [hp] at he; cases he
        · exact ⟨l, hl, e, he⟩
      | some r =>
        have hnc := reconcile_no_commit db ctx r trace htr
        simp only [loop, hp]
        cases hf : (reconcile db ctx r trace).fatal with
        | some e => exact ⟨by simp, hnc⟩
        | none =>
          apply ih _ hnc
          obtain ⟨l, hl, e, he⟩ := hex
          rcases List.mem_cons.mp hl with rfl | hl
          · rw [hp] at he; cases he
          · exact ⟨l, hl, e, he⟩

theorem normalize_empty (U : CaseTables) (filetype : Str) (h : filetype ∈ supportedFiletypes) :
    normalize U filetype [] = .error Fatal.indexOutOfRange := by
  simp only [supportedFiletypes, List.mem_cons, List.mem_singleton, List.not_mem_nil,
    or_false] at h
  rcases h with h | h | h | h | h | h <;> (subst h; rfl)

theorem fixLinelist_unknown (U : CaseTables) (filetype line : Str)
    (h : filetype ∉ supportedFiletypes) :
    fixLinelist U filetype line = .error Fatal.unknownFiletype := by
  simp only [supportedFiletypes, List.mem_cons, List.mem_singleton, List.not_mem_nil,
    or_false, not_or] at h
  obtain ⟨h1, h2, h3, h4, h5, h6⟩ := h
  unfold fixLinelist
  rw [if_neg h1, if_neg h3, if_neg h4, if_neg h2, if_neg h5, if_neg h6]

theorem normalize_unknown (U : CaseTables) (filetype line : Str)
    (h : filetype ∉ supportedFiletypes) :
    normalize U filetype line = .error Fatal.unknownFiletype := by
  unfold normalize
  rw [fixLinelist_unknown U filetype line h]
  rfl

theorem loop_all_comments (U : CaseTables) (db : Storage) (ctx : Context) (lines : List Str)
    (trace : List Event) (h : ∀ l ∈ lines, HasPrefix l "#".toList = true) :
    loop U db ctx lines trace = finish db trace := by
  induction lines with
  | nil => rfl
  | cons line rest ih =>
    rw [loop_skip U db ctx line rest trace
      (processLine_comment U ctx.filetype line (h line (List.mem_cons_self _ _)))]
    exact ih (fun l hl => h l (List.mem_cons_of_mem _ hl))

theorem loop_unknown (U : CaseTables) (db : Storage) (ctx : Context) (lines : List Str)
    (trace : List Event) (hft : ctx.filetype ∉ supportedFiletypes)
    (h : ∃ l ∈ lines, HasPrefix l "#".toList = false) :
    loop U db ctx lines trace = { trace := trace, fatal := some Fatal.unknownFiletype } := by
  induction lines with
  | nil => simp at h
  | cons line rest ih =>
    cases hc : HasPrefix line "#".toList with
    | true =>
      rw [loop_skip U db ctx line rest trace (processLine_comment U ctx.filetype line hc)]
      apply ih
      obtain ⟨l, hl, hl2⟩ := h
      rcases List.mem_cons.mp hl with rfl | hl
      · rw [hc] at hl2; cases hl2
      · exact ⟨l, hl, hl2⟩
    | false =>
      apply loop_error
      rw [processLine_not_comment U ctx.filetype line hc]
      exact normalize_unknown U ctx.filetype _ hft

/-! ## Unfolding the filetype chain -/

theorem fixLinelist_23andme (U : CaseTables) (line : Str) :
    fixLinelist U "23andme".toList line = .ok (some (Split line '\t')) := rfl

theorem fixLinelist_ancestry (U : CaseTables) (line : Str) :
    fixLinelist U "ancestry".toList line =
      (index (Split line '\t') 0).bind fun l0 =>
        if l0 = "rsid".toList then .ok none
        else
          (index (Split line '\t') 1).bind fun l1 =>
          (index (Split line '\t') 3).bind fun l3 =>
          (index (Split line '\t') 4).bind fun l4 =>
          (index (Split line '\t') 5).bind fun l5 =>
          .ok (some [l0, l1, l3, l4 ++ l5]) := rfl

theorem fixLinelist_decodeme (U : CaseTables) (line : Str) :
    fixLinelist U "decodeme".toList line =
      (index (Split line ',') 0).bind fun l0 =>
        if l0 = "name".toList then .ok none
        else
          (index (Split line ',') 2).bind fun l2 =>
          (index (Split line ',') 3).bind fun l3 =>
          (index (Split line ',') 5).bind fun l5 =>
          .ok (some [l0, l2, l3, l5]) := rfl

theorem fixLinelist_ftdna (U : CaseTables) (line : Str) :
    fixLinelist U "ftdna-illumina".toList line =
      (index (Split (Replace line (Char.ofNat 34) []) ',') 0).bind fun l0 =>
        if l0 = "rsid".toList then .ok none
        else .ok (some (Split (Replace line (Char.ofNat 34) []) ',')) := rfl

theorem fixLinelist_vcf (U : CaseTables) (line : Str) :
    fixLinelist U "23andme-exome-vcf".toList line =
      (index (Split line '\t') 8).bind fun l8 =>
      (index (Split line '\t') 9).bind fun l9 =>
      (indexInt (Split l9 ':') (genotype_index (Split l8 ':') 0)).bind fun gt =>
      (index (Split line '\t') 3).bind fun l3 =>
      (index (Split line '\t') 4).bind fun l4 =>
      (index (Split line '\t') 2).bind fun l2 =>
      (index (Split line '\t') 0).bind fun l0 =>
      (index (Split line '\t') 1).bind fun l1 =>
      .ok (some [ToLower U l2, l0, l1, genotype_parsed l3 l4 (Split gt '/') []]) := rfl

theorem fixLinelist_iyg (U : CaseTables) (line : Str) :
    fixLinelist U "IYG".toList line =
      (index (Split line '\t') 0).bind fun name =>
        if HasPrefix name "MT".toList || HasPrefix name "mt".toList then
          (index (Split line '\t') 1).bind fun l1 =>
          .ok (some [(match lookupAlias db_snp_snps name with
                      | some new_name => new_name
                      | none => name),
                     "MT".toList, Replace (Map replace_letters name) 'X' [], l1])
        else
          (index (Split line '\t') 0).bind fun l0 =>
          (index (Split line '\t') 1).bind fun l1 =>
          .ok (some [l0, "1".toList, "1".toList, l1]) := rfl

theorem index_cons_zero (x : Str) (xs : List Str) : index (x :: xs) 0 = .ok x := rfl

theorem index_cons_succ (x : Str) (xs : List Str) (i : Nat) :
    index (x :: xs) (i + 1) = index xs i := rfl

theorem index_of_get? (xs : List Str) (i : Nat) (x : Str) (h : xs.get? i = some x) :
    index xs i = .ok x := by
  unfold index; rw [h]

theorem index_of_head? (xs : List Str) (x : Str) (h : xs.head? = some x) :
    index xs 0 = .ok x := by
  cases xs with
  | nil => cases h
  | cons a as => cases h; rfl

theorem genotype_index_none (fa : List Str) :
    ∀ n : Nat, (∀ e ∈ fa, e ≠ "GT".toList ∧ e ≠ "gt".toList) → genotype_index fa n = -1 := by
  induction fa with
  | nil => intro n _; rfl
  | cons e rest ih =>
    intro n h
    have he := h e (List.mem_cons_self _ _)
    unfold genotype_index
    rw [if_neg (by rintro (h1 | h1); exact he.1 h1; exact he.2 h1)]
    exact ih (n + 1) (fun x hx => h x (List.mem_cons_of_mem _ hx))

theorem genotype_index_first (pre : List Str) (e : Str) (post : List Str)
    (he : e = "GT".toList ∨ e = "gt".toList) :
    ∀ n : Nat, (∀ x ∈ pre, x ≠ "GT".toList ∧ x ≠ "gt".toList) →
      genotype_index (pre ++ e :: post) n = ((n + pre.length : Nat) : Int) := by
  induction pre with
  | nil =>
    intro n _
    simp only [List.nil_append, genotype_index, if_pos he, List.length_nil, Nat.add_zero]
  | cons x rest ih =>
    intro n h
    have hx := h x (List.mem_cons_self _ _)
    have hstep : genotype_index (x :: (rest ++ e :: post)) n
        = genotype_index (rest ++ e :: post) (n + 1) := by
      rw [genotype_index, if_neg (by rintro (h1 | h1); exact hx.1 h1; exact hx.2 h1)]
    rw [List.cons_append, hstep, ih (n + 1) (fun y hy => h y (List.mem_cons_of_mem _ hy))]
    simp only [List.length_cons]
    congr 1
    omega

theorem genotype_parsed_eq (ref alt : Str) (parts : List Str) :
    ∀ acc : Str, (∀ p ∈ parts, p = "0".toList ∨ p = "1".toList) →
      genotype_parsed ref alt parts acc
        = acc ++ parts.flatMap (fun p => if p = "0".toList then ref else alt) := by
  induction parts with
  | nil => intro acc _; simp [genotype_parsed]
  | cons p rest ih =>
    intro acc h
    have hrest : ∀ q ∈ rest, q = "0".toList ∨ q = "1".toList :=
      fun q hq => h q (List.mem_cons_of_mem _ hq)
    rcases h p (List.mem_cons_self _ _) with hp | hp
    · subst hp
      simp only [genotype_parsed, if_true, List.flatMap_cons]
      rw [ih _ hrest, List.append_assoc]
    · subst hp
      have h01 : ¬ ("1".toList = "0".toList) := by decide
      simp only [genotype_parsed, if_neg h01, if_true, List.flatMap_cons]
      rw [ih _ hrest, List.append_assoc]

theorem loop_filter_comments (U : CaseTables) (db : Storage) (ctx : Context)
    (lines : List Str) :
    ∀ trace : List Event,
      loop U db ctx lines trace
        = loop U db ctx (lines.filter (fun l => !HasPrefix l "#".toList)) trace := by
  induction lines with
  | nil => intro trace; rfl
  | cons line rest ih =>
    intro trace
    cases hc : HasPrefix line "#".toList with
    | true =>
      rw [loop_skip U db ctx line rest trace (processLine_comment U ctx.filetype line hc),
        List.filter_cons_of_neg (by rw [hc]; decide)]
      exact ih trace
    | false =>
      rw [List.filter_cons_of_pos (by rw [hc]; decide)]
      simp only [loop]
      cases processLine U ctx.filetype line with
      | error e => rfl
      | ok o =>
        cases o with
        | none => exact ih trace
        | some r =>
          simp only []
          cases (reconcile db ctx r trace).fatal with
          | some e => rfl
          | none => exact ih _

/-! ## Inversion of the normaliser -/

theorem bind_ok_inv {α β : Type} (x : Except Fatal α) (f : α → Except Fatal β) (y : β)
    (h : x.bind f = .ok y) : ∃ a, x = .ok a ∧ f a = .ok y := by
  cases x with
  | error e => cases h
  | ok a => exact ⟨a, rfl, h⟩

theorem index_ok_inv (xs : List Str) (i : Nat) (a : Str) (h : index xs i = .ok a) :
    xs.get? i = some a := by
  unfold index at h
  cases hg : xs.get? i with
  | none => rw [hg] at h; cases h
  | some x => rw [hg] at h; cases h; rfl

theorem assemble_ok_inv (U : CaseTables) (ll : List Str) (r : Record)
    (h : assemble U ll = .ok r) :
    ∃ a b c d, ll.get? 0 = some a ∧ ll.get? 1 = some b ∧ ll.get? 2 = some c ∧
      ll.get? 3 = some d ∧
      r = { snp_name := a, chromosome := ToUpper U b, position := c, allele := ToUpper U d } := by
  unfold assemble at h
  obtain ⟨a, ha, h⟩ := bind_ok_inv _ _ _ h
  obtain ⟨b, hb, h⟩ := bind_ok_inv _ _ _ h
  obtain ⟨c, hc, h⟩ := bind_ok_inv _ _ _ h
  obtain ⟨d, hd, h⟩ := bind_ok_inv _ _ _ h
  cases h
  exact ⟨a, b, c, d, index_ok_inv _ _ _ ha, index_ok_inv _ _ _ hb, index_ok_inv _ _ _ hc,
    index_ok_inv _ _ _ hd, rfl⟩

theorem normalize_ok_inv (U : CaseTables) (filetype line : Str) (r : Record)
    (h : normalize U filetype line = .ok (some r)) :
    ∃ ll, fixLinelist U filetype line = .ok (some ll) ∧ assemble U ll = .ok r := by
  unfold normalize at h
  obtain ⟨o, ho, h⟩ := bind_ok_inv _ _ _ h
  cases o with
  | none => cases h
  | some ll =>
    refine ⟨ll, ho, ?_⟩
    cases ha : assemble U ll with
    | error e => simp only [ha] at h; cases h
    | ok r2 => simp only [ha] at h; cases h; rfl

theorem lookupAlias_mem (table : List (Str × Str)) (name v : Str)
    (h : lookupAlias table name = some v) : ∃ k, (k, v) ∈ table := by
  induction table with
  | nil => cases h
  | cons kv rest ih =>
    obtain ⟨k, w⟩ := kv
    unfold lookupAlias at h
    by_cases hk : name = k
    · rw [if_pos hk] at h
      cases h
      exact ⟨k, List.mem_cons_self _ _⟩
    · rw [if_neg hk] at h
      obtain ⟨k2, hk2⟩ := ih h
      exact ⟨k2, List.mem_cons_of_mem _ hk2⟩

theorem db_snp_snps_values_nonempty (name v : Str)
    (h : lookupAlias db_snp_snps name = some v) : v ≠ [] := by
  obtain ⟨k, hk⟩ := lookupAlias_mem _ _ _ h
  have hall : ∀ kv ∈ db_snp_snps, kv.2 ≠ [] := by decide
  exact hall (k, v) hk

/-- The first entry of the list the format chain hands to the field assembly is
non-empty when the line's name column is. -/
theorem fixLinelist_name_nonempty (U : CaseTables) (filetype line : Str) (ll : List Str)
    (h : fixLinelist U filetype line = .ok (some ll)) (col n : Str)
    (hcol : nameColumn filetype line = some col) (hne : col ≠ [])
    (hn : ll.get? 0 = some n) : n ≠ [] := by
  by_cases hft : filetype ∈ supportedFiletypes
  · simp only [supportedFiletypes, List.mem_cons, List.mem_singleton, List.not_mem_nil,
      or_false] at hft
    rcases hft with hf | hf | hf | hf | hf | hf <;> subst hf
    · rw [fixLinelist_23andme] at h
      cases h
      have hc : (Split line '\t').get? 0 = some col := hcol
      rw [hc] at hn; cases hn; exact hne
    · rw [fixLinelist_ftdna] at h
      obtain ⟨l0, h0, h⟩ := bind_ok_inv _ _ _ h
      by_cases hh : l0 = "rsid".toList
      · rw [if_pos hh] at h; cases h
      · rw [if_neg hh] at h
        cases h
        have hc : (Split (Replace line (Char.ofNat 34) []) ',').get? 0 = some col := hcol
        rw [hc] at hn; cases hn; exact hne
    · rw [fixLinelist_ancestry] at h
      obtain ⟨l0, h0, h⟩ := bind_ok_inv _ _ _ h
      by_cases hh : l0 = "rsid".toList
      · rw [if_pos hh] at h; cases h
      · rw [if_neg hh] at h
        obtain ⟨l1, _, h⟩ := bind_ok_inv _ _ _ h
        obtain ⟨l3, _, h⟩ := bind_ok_inv _ _ _ h
        obtain ⟨l4, _, h⟩ := bind_ok_inv _ _ _ h
        obtain ⟨l5, _, h⟩ := bind_ok_inv _ _ _ h
        cases h
        have hc : (Split line '\t').get? 0 = some col := hcol
        rw [index_ok_inv _ _ _ h0] at hc
        cases hc; cases hn; exact hne
    · rw [fixLinelist_decodeme] at h
      obtain ⟨l0, h0, h⟩ := bind_ok_inv _ _ _ h
      by_cases hh : l0 = "name".toList
      · rw [if_pos hh] at h; cases h
      · rw [if_neg hh] at h
        obtain ⟨l2, _, h⟩ := bind_ok_inv _ _ _ h
        obtain ⟨l3, _, h⟩ := bind_ok_inv _ _ _ h
        obtain ⟨l5, _, h⟩ := bind_ok_inv _ _ _ h
        cases h
        have hc : (Split line ',').get? 0 = some col := hcol
        rw [index_ok_inv _ _ _ h0] at hc
        cases hc; cases hn; exact hne
    · rw [fixLinelist_vcf] at h
      obtain ⟨l8, _, h⟩ := bind_ok_inv _ _ _ h
      obtain ⟨l9, _, h⟩ := bind_ok_inv _ _ _ h
      obtain ⟨gt, _, h⟩ := bind_ok_inv _ _ _ h
      obtain ⟨l3, _, h⟩ := bind_ok_inv _ _ _ h
      obtain ⟨l4, _, h⟩ := bind_ok_inv _ _ _ h
      obtain ⟨l2, h2, h⟩ := bind_ok_inv _ _ _ h
      obtain ⟨l0, _, h⟩ := bind_ok_inv _ _ _ h
      obtain ⟨l1, _, h⟩ := bind_ok_inv _ _ _ h
      cases h
      have hc : (Split line '\t').get? 2 = some col := hcol
      rw [index_ok_inv _ _ _ h2] at hc
      cases hc; cases hn
      intro hnil
      apply hne
      exact List.map_eq_nil_iff.mp hnil
    · rw [fixLinelist_iyg] at h
      obtain ⟨name, h0, h⟩ := bind_ok_inv _ _ _ h
      have hc : (Split line '\t').get? 0 = some col := hcol
      rw [index_ok_inv _ _ _ h0] at hc
      injection hc with hc
      subst hc
      by_cases hmt : (HasPrefix name "MT".toList || HasPrefix name "mt".toList) = true
      · rw [if_pos hmt] at h
        obtain ⟨l1, _, h⟩ := bind_ok_inv _ _ _ h
        cases h
        cases hn
        cases hl : lookupAlias db_snp_snps name with
        | none => exact hne
        | some v => exact db_snp_snps_values_nonempty name v hl
      · rw [if_neg hmt] at h
        obtain ⟨l0, h0b, h⟩ := bind_ok_inv _ _ _ h
        obtain ⟨l1, _, h⟩ := bind_ok_inv _ _ _ h
        cases h
        cases hn
        rw [h0] at h0b
        cases h0b
        exact hne
  · rw [fixLinelist_unknown U filetype line hft] at h
    cases h

/-! ## The ASCII case tables -/

theorem toUpper_cases (c : Char) :
    (c.toUpper = c ∧ ¬ (97 ≤ c.toNat ∧ c.toNat ≤ 122)) ∨
      (∃ n, 97 ≤ n ∧ n ≤ 122 ∧ c = Char.ofNat n) := by
  by_cases h : 97 ≤ c.toNat ∧ c.toNat ≤ 122
  · exact Or.inr ⟨c.toNat, h.1, h.2, (Char.ofNat_toNat c).symm⟩
  · refine Or.inl ⟨?_, h⟩
    unfold Char.toUpper
    simp only [ge_iff_le]
    rw [if_neg h]

theorem asciiCase_upper_idem (c : Char) :
    asciiCase.upper (asciiCase.upper c) = asciiCase.upper c := by
  show c.toUpper.toUpper = c.toUpper
  rcases toUpper_cases c with ⟨h, _⟩ | ⟨n, h1, h2, rfl⟩
  · rw [h, h]
  · interval_cases n <;> decide

theorem asciiCase_upper_not_lower (c : Char) : (asciiCase.upper c).isLower = false := by
  show c.toUpper.isLower = false
  rcases toUpper_cases c with ⟨h, hn⟩ | ⟨n, h1, h2, rfl⟩
  · rw [h]
    unfold Char.isLower
    have hv : c.toNat = c.val.toNat := rfl
    rw [hv] at hn
    rw [Bool.and_eq_false_iff]
    simp only [ge_iff_le, decide_eq_false_iff_not]
    by_contra hc
    push_neg at hc
    exact hn ⟨hc.1, hc.2⟩
  · interval_cases n <;> decide

/-! ## The normaliser on a line given by its columns -/

theorem ToUpper_MT (U : CaseTables) : ToUpper U "MT".toList = "MT".toList := by
  rw [ToUpper_ascii U _ (by decide)]; decide

theorem ToUpper_one (U : CaseTables) : ToUpper U "1".toList = "1".toList := by
  rw [ToUpper_ascii U _ (by decide)]; decide

theorem assemble_four (U : CaseTables) (a b c d : Str) (rest : List Str) :
    assemble U (a :: b :: c :: d :: rest)
      = .ok { snp_name := a, chromosome := ToUpper U b, position := c,
              allele := ToUpper U d } := rfl

theorem normalize_of_fixLinelist (U : CaseTables) (filetype line : Str) (a b c d : Str)
    (rest : List Str) (h : fixLinelist U filetype line = .ok (some (a :: b :: c :: d :: rest))) :
    normalize U filetype line
      = .ok (some { snp_name := a, chromosome := ToUpper U b, position := c,
                    allele := ToUpper U d }) := by
  unfold normalize
  rw [h]
  rfl

theorem normalize_of_fixLinelist_error (U : CaseTables) (filetype line : Str) (e : Fatal)
    (h : fixLinelist U filetype line = .error e) :
    normalize U filetype line = .error e := by
  unfold normalize
  rw [h]
  rfl

theorem normalize_23andme_cols (U : CaseTables) (line c0 c1 c2 c3 : Str) (rest : List Str)
    (h : Split line '\t' = c0 :: c1 :: c2 :: c3 :: rest) :
    normalize U "23andme".toList line
      = .ok (some { snp_name := c0, chromosome := ToUpper U c1, position := c2,
                    allele := ToUpper U c3 }) := by
  apply normalize_of_fixLinelist U _ _ c0 c1 c2 c3 rest
  rw [fixLinelist_23andme, h]

theorem normalize_ftdna_cols (U : CaseTables) (line c0 c1 c2 c3 : Str) (rest : List Str)
    (h : Split (Replace line (Char.ofNat 34) []) ',' = c0 :: c1 :: c2 :: c3 :: rest)
    (hh : c0 ≠ "rsid".toList) :
    normalize U "ftdna-illumina".toList line
      = .ok (some { snp_name := c0, chromosome := ToUpper U c1, position := c2,
                    allele := ToUpper U c3 }) := by
  apply normalize_of_fixLinelist U _ _ c0 c1 c2 c3 rest
  rw [fixLinelist_ftdna, h, index_cons_zero]
  simp only [Except.bind, if_neg hh]

theorem normalize_ancestry_cols (U : CaseTables) (line c0 c1 c2 c3 c4 c5 : Str)
    (rest : List Str) (h : Split line '\t' = c0 :: c1 :: c2 :: c3 :: c4 :: c5 :: rest)
    (hh : c0 ≠ "rsid".toList) :
    normalize U "ancestry".toList line
      = .ok (some { snp_name := c0, chromosome := ToUpper U c1, position := c3,
                    allele := ToUpper U (c4 ++ c5) }) := by
  have h1 : index (c0 :: c1 :: c2 :: c3 :: c4 :: c5 :: rest) 1 = .ok c1 := rfl
  have h3 : index (c0 :: c1 :: c2 :: c3 :: c4 :: c5 :: rest) 3 = .ok c3 := rfl
  have h4 : index (c0 :: c1 :: c2 :: c3 :: c4 :: c5 :: rest) 4 = .ok c4 := rfl
  have h5 : index (c0 :: c1 :: c2 :: c3 :: c4 :: c5 :: rest) 5 = .ok c5 := rfl
  apply normalize_of_fixLinelist U _ _ c0 c1 c3 (c4 ++ c5) []
  rw [fixLinelist_ancestry, h, index_cons_zero]
  simp only [Except.bind, if_neg hh, h1, h3, h4, h5]

theorem normalize_decodeme_cols (U : CaseTables) (line c0 c1 c2 c3 c4 c5 : Str)
    (rest : List Str) (h : Split line ',' = c0 :: c1 :: c2 :: c3 :: c4 :: c5 :: rest)
    (hh : c0 ≠ "name".toList) :
    normalize U "decodeme".toList line
      = .ok (some { snp_name := c0, chromosome := ToUpper U c2, position := c3,
                    allele := ToUpper U c5 }) := by
  have h2 : index (c0 :: c1 :: c2 :: c3 :: c4 :: c5 :: rest) 2 = .ok c2 := rfl
  have h3 : index (c0 :: c1 :: c2 :: c3 :: c4 :: c5 :: rest) 3 = .ok c3 := rfl
  have h5 : index (c0 :: c1 :: c2 :: c3 :: c4 :: c5 :: rest) 5 = .ok c5 := rfl
  apply normalize_of_fixLinelist U _ _ c0 c2 c3 c5 []
  rw [fixLinelist_decodeme, h, index_cons_zero]
  simp only [Except.bind, if_neg hh, h2, h3, h5]

theorem normalize_iyg_mt_cols (U : CaseTables) (line c0 c1 : Str) (rest : List Str)
    (h : Split line '\t' = c0 :: c1 :: rest)
    (hmt : (HasPrefix c0 "MT".toList || HasPrefix c0 "mt".toList) = true) :
    normalize U "IYG".toList line
      = .ok (some { snp_name := (match lookupAlias db_snp_snps c0 with
                                 | some new_name => new_name
                                 | none => c0),
                    chromosome := "MT".toList,
                    position := Replace (Map replace_letters c0) 'X' [],
                    allele := ToUpper U c1 }) := by
  have h1 : index (c0 :: c1 :: rest) 1 = .ok c1 := rfl
  rw [← ToUpper_MT U]
  apply normalize_of_fixLinelist U _ _ _ _ _ _ []
  rw [fixLinelist_iyg, h, index_cons_zero]
  simp only [Except.bind, if_pos hmt, h1]

theorem normalize_iyg_plain_cols (U : CaseTables) (line c0 c1 : Str) (rest : List Str)
    (h : Split line '\t' = c0 :: c1 :: rest)
    (hmt : (HasPrefix c0 "MT".toList || HasPrefix c0 "mt".toList) = false) :
    normalize U "IYG".toList line
      = .ok (some { snp_name := c0, chromosome := "1".toList, position := "1".toList,
                    allele := ToUpper U c1 }) := by
  have h1 : index (c0 :: c1 :: rest) 1 = .ok c1 := rfl
  have hne : ¬ ((HasPrefix c0 "MT".toList || HasPrefix c0 "mt".toList) = true) := by
    rw [hmt]; decide
  have hfix : fixLinelist U "IYG".toList line
      = .ok (some [c0, "1".toList, "1".toList, c1]) := by
    rw [fixLinelist_iyg, h, index_cons_zero]
    simp only [Except.bind, if_neg hne, h1, index_cons_zero]
  rw [normalize_of_fixLinelist U _ _ _ _ _ _ [] hfix, ToUpper_one]

theorem replace_letters_letter (c : Char)
    (h : ('A' ≤ c ∧ c ≤ 'Z') ∨ ('a' ≤ c ∧ c ≤ 'z')) : replace_letters c = 'X' := by
  unfold replace_letters
  by_cases hu : 'A' ≤ c ∧ c ≤ 'Z'
  · rw [if_pos hu]
  · rw [if_neg hu]
    rcases h with h | h
    · exact absurd h hu
    · rw [if_pos h]

theorem replace_letters_other (c : Char)
    (h : ¬ (('A' ≤ c ∧ c ≤ 'Z') ∨ ('a' ≤ c ∧ c ≤ 'z'))) :
    replace_letters c = c ∧ c ≠ 'X' := by
  have hu : ¬ ('A' ≤ c ∧ c ≤ 'Z') := fun hc => h (Or.inl hc)
  have hl : ¬ ('a' ≤ c ∧ c ≤ 'z') := fun hc => h (Or.inr hc)
  refine ⟨?_, ?_⟩
  · unfold replace_letters
    rw [if_neg hu, if_neg hl]
  · intro hx
    apply hu
    rw [hx]
    decide

theorem replace_letters_filter (name : Str) :
    Replace (Map replace_letters name) 'X' [] = deleteLetters name := by
  induction name with
  | nil => rfl
  | cons c rest ih =>
    have hstep : Replace (Map replace_letters (c :: rest)) 'X' []
        = (if replace_letters c = 'X' then [] else [replace_letters c])
            ++ Replace (Map replace_letters rest) 'X' [] := by
      simp only [Replace, Map, List.map_cons, List.flatMap_cons]
    rw [hstep, ih]
    unfold deleteLetters
    by_cases h : ('A' ≤ c ∧ c ≤ 'Z') ∨ ('a' ≤ c ∧ c ≤ 'z')
    · have hb : (decide ('A' ≤ c ∧ c ≤ 'Z') || decide ('a' ≤ c ∧ c ≤ 'z')) = true := by
        rw [Bool.or_eq_true, decide_eq_true_iff, decide_eq_true_iff]
        exact h
      rw [replace_letters_letter c h, if_pos rfl,
        List.filter_cons_of_neg (by
          show ¬ ((!(decide ('A' ≤ c ∧ c ≤ 'Z') || decide ('a' ≤ c ∧ c ≤ 'z'))) = true)
          rw [hb]; decide)]
      rfl
    · obtain ⟨h1, h2⟩ := replace_letters_other c h
      have hb : (decide ('A' ≤ c ∧ c ≤ 'Z') || decide ('a' ≤ c ∧ c ≤ 'z')) = false := by
        rw [Bool.or_eq_false_iff, decide_eq_false_iff_not, decide_eq_false_iff_not]
        exact ⟨fun hc => h (Or.inl hc), fun hc => h (Or.inr hc)⟩
      rw [h1, if_neg h2, List.filter_cons_of_pos (by
          show (!(decide ('A' ≤ c ∧ c ≤ 'Z') || decide ('a' ≤ c ∧ c ≤ 'z'))) = true
          rw [hb]; rfl)]
      rfl

/-! ## The scanner loop and the end of `main` -/

theorem index_total (xs : List Str) (i : Nat) :
    (∃ x, index xs i = .ok x ∧ i < xs.length) ∨
      (index xs i = .error Fatal.indexOutOfRange ∧ xs.length ≤ i) := by
  unfold index
  cases h : xs.get? i with
  | none => exact Or.inr ⟨rfl, List.get?_eq_none.mp h⟩
  | some x =>
    refine Or.inl ⟨x, rfl, ?_⟩
    by_contra hlt
    rw [List.get?_eq_none.mpr (Nat.le_of_not_lt hlt)] at h
    cases h

theorem index_short (xs : List Str) (i : Nat) (h : xs.length ≤ i) :
    index xs i = .error Fatal.indexOutOfRange := by
  unfold index
  rw [List.get?_eq_none.mpr h]

theorem shape2 (cols : List Str) (h : 2 ≤ cols.length) :
    ∃ c0 c1 rest, cols = c0 :: c1 :: rest := by
  rcases cols with _ | ⟨c0, _ | ⟨c1, rest⟩⟩
  · simp at h
  · simp at h
  · exact ⟨c0, c1, rest, rfl⟩

theorem shape4 (cols : List Str) (h : 4 ≤ cols.length) :
    ∃ c0 c1 c2 c3 rest, cols = c0 :: c1 :: c2 :: c3 :: rest := by
  obtain ⟨c0, c1, r1, rfl⟩ := shape2 cols (by omega)
  obtain ⟨c2, c3, r2, rfl⟩ := shape2 r1 (by simp only [List.length_cons] at h; omega)
  exact ⟨c0, c1, c2, c3, r2, rfl⟩

theorem shape6 (cols : List Str) (h : 6 ≤ cols.length) :
    ∃ c0 c1 c2 c3 c4 c5 rest, cols = c0 :: c1 :: c2 :: c3 :: c4 :: c5 :: rest := by
  obtain ⟨c0, c1, c2, c3, r1, rfl⟩ := shape4 cols (by omega)
  obtain ⟨c4, c5, r2, rfl⟩ := shape2 r1 (by simp only [List.length_cons] at h; omega)
  exact ⟨c0, c1, c2, c3, c4, c5, r2, rfl⟩

theorem take_shape (n : Nat) (cols cols2 front rest : List Str) (hn : front.length = n)
    (h1 : cols = front ++ rest) (h2 : cols2.take n = cols.take n) :
    cols2 = front ++ cols2.drop n := by
  have ht : cols.take n = front := by
    rw [h1, ← hn, List.take_left]
  rw [ht] at h2
  conv_lhs => rw [← List.take_append_drop n cols2, h2]

theorem normalize_short_23andme (U : CaseTables) (line : Str)
    (h : (Split line '\t').length < 4) :
    normalize U "23andme".toList line = .error Fatal.indexOutOfRange := by
  unfold normalize
  rw [fixLinelist_23andme]
  generalize Split line '\t' = cols at h
  rcases cols with _ | ⟨c0, _ | ⟨c1, _ | ⟨c2, _ | ⟨c3, rest⟩⟩⟩⟩
  · rfl
  · rfl
  · rfl
  · rfl
  · simp only [List.length_cons] at h; omega

theorem normalize_short_ftdna (U : CaseTables) (line : Str)
    (hh : (Split (Replace line (Char.ofNat 34) []) ',').head? ≠ some "rsid".toList)
    (h : (Split (Replace line (Char.ofNat 34) []) ',').length < 4) :
    normalize U "ftdna-illumina".toList line = .error Fatal.indexOutOfRange := by
  unfold normalize
  rw [fixLinelist_ftdna]
  generalize Split (Replace line (Char.ofNat 34) []) ',' = cols at h hh
  rcases cols with _ | ⟨c0, rest⟩
  · rfl
  · have hne : c0 ≠ "rsid".toList := fun hc => hh (by rw [hc]; rfl)
    rw [index_cons_zero]
    simp only [Except.bind, if_neg hne]
    rcases rest with _ | ⟨c1, _ | ⟨c2, _ | ⟨c3, rest⟩⟩⟩
    · rfl
    · rfl
    · rfl
    · simp only [List.length_cons] at h; omega

theorem normalize_short_ancestry (U : CaseTables) (line : Str)
    (hh : (Split line '\t').head? ≠ some "rsid".toList)
    (h : (Split line '\t').length < 6) :
    normalize U "ancestry".toList line = .error Fatal.indexOutOfRange := by
  apply normalize_of_fixLinelist_error
  rw [fixLinelist_ancestry]
  generalize Split line '\t' = cols at h hh
  rcases index_total cols 0 with ⟨l0, h0, _⟩ | ⟨h0, _⟩
  · have hne : l0 ≠ "rsid".toList := by
      intro hc
      apply hh
      rcases cols with _ | ⟨c0, rest⟩
      · cases h0
      · cases h0; rw [hc]; rfl
    rw [h0]
    simp only [Except.bind, if_neg hne]
    rcases index_total cols 1 with ⟨l1, h1, _⟩ | ⟨h1, _⟩
    · rcases index_total cols 3 with ⟨l3, h3, _⟩ | ⟨h3, _⟩
      · rcases index_total cols 4 with ⟨l4, h4, _⟩ | ⟨h4, _⟩
        · rw [h1, h3, h4, index_short cols 5 (by omega)]
        · rw [h1, h3, h4]
      · rw [h1, h3]
    · rw [h1]
  · rw [h0]
    rfl

theorem normalize_short_decodeme (U : CaseTables) (line : Str)
    (hh : (Split line ',').head? ≠ some "name".toList)
    (h : (Split line ',').length < 6) :
    normalize U "decodeme".toList line = .error Fatal.indexOutOfRange := by
  apply normalize_of_fixLinelist_error
  rw [fixLinelist_decodeme]
  generalize Split line ',' = cols at h hh
  rcases index_total cols 0 with ⟨l0, h0, _⟩ | ⟨h0, _⟩
  · have hne : l0 ≠ "name".toList := by
      intro hc
      apply hh
      rcases cols with _ | ⟨c0, rest⟩
      · cases h0
      · cases h0; rw [hc]; rfl
    rw [h0]
    simp only [Except.bind, if_neg hne]
    rcases index_total cols 2 with ⟨l2, h2, _⟩ | ⟨h2, _⟩
    · rcases index_total cols 3 with ⟨l3, h3, _⟩ | ⟨h3, _⟩
      · rw [h2, h3, index_short cols 5 (by omega)]
      · rw [h2, h3]
    · rw [h2]
  · rw [h0]
    rfl

theorem normalize_short_iyg (U : CaseTables) (line : Str)
    (h : (Split line '\t').length < 2) :
    normalize U "IYG".toList line = .error Fatal.indexOutOfRange := by
  apply normalize_of_fixLinelist_error
  rw [fixLinelist_iyg]
  generalize Split line '\t' = cols at h
  rcases index_total cols 0 with ⟨l0, h0, _⟩ | ⟨h0, _⟩
  · rw [h0]
    simp only [Except.bind, index_short cols 1 (by omega)]
    by_cases hmt : (HasPrefix l0 "MT".toList || HasPrefix l0 "mt".toList) = true
    · rw [if_pos hmt]
    · rw [if_neg hmt]
  · rw [h0]
    rfl

theorem normalize_short (U : CaseTables) (filetype line : Str)
    (hft : filetype ∈ ["23andme".toList, "ftdna-illumina".toList, "ancestry".toList,
      "decodeme".toList, "IYG".toList])
    (hhead : isHeader filetype line = false)
    (hlen : (columns filetype line).length < neededColumns filetype) :
    normalize U filetype line = .error Fatal.indexOutOfRange := by
  simp only [List.mem_cons, List.mem_singleton, List.not_mem_nil, or_false] at hft
  rcases hft with hf | hf | hf | hf | hf <;> subst hf
  · exact normalize_short_23andme U line hlen
  · exact normalize_short_ftdna U line (of_decide_eq_false hhead) hlen
  · exact normalize_short_ancestry U line (of_decide_eq_false hhead) hlen
  · exact normalize_short_decodeme U line (of_decide_eq_false hhead) hlen
  · exact normalize_short_iyg U line hlen

theorem normalize_long (U : CaseTables) (filetype line : Str)
    (hft : filetype ∈ ["23andme".toList, "ftdna-illumina".toList, "ancestry".toList,
      "decodeme".toList, "IYG".toList])
    (hhead : isHeader filetype line = false)
    (hlen : neededColumns filetype ≤ (columns filetype line).length) :
    ∃ r, normalize U filetype line = .ok (some r) ∧
      ∀ line2, (columns filetype line2).take (neededColumns filetype)
          = (columns filetype line).take (neededColumns filetype) →
        normalize U filetype line2 = .ok (some r) := by
  simp only [List.mem_cons, List.mem_singleton, List.not_mem_nil, or_false] at hft
  rcases hft with hf | hf | hf | hf | hf <;> subst hf
  · obtain ⟨c0, c1, c2, c3, rest, hc⟩ := shape4 (Split line '\t') hlen
    refine ⟨_, normalize_23andme_cols U line c0 c1 c2 c3 rest hc, ?_⟩
    intro line2 h2
    exact normalize_23andme_cols U line2 c0 c1 c2 c3 _
      (take_shape 4 (Split line '\t') (Split line2 '\t') [c0, c1, c2, c3] rest rfl hc h2)
  · obtain ⟨c0, c1, c2, c3, rest, hc⟩ :=
      shape4 (Split (Replace line (Char.ofNat 34) []) ',') hlen
    have hne : c0 ≠ "rsid".toList := by
      intro h0
      have hh : (Split (Replace line (Char.ofNat 34) []) ',').head? ≠ some "rsid".toList :=
        of_decide_eq_false hhead
      apply hh
      rw [hc, h0]
      rfl
    refine ⟨_, normalize_ftdna_cols U line c0 c1 c2 c3 rest hc hne, ?_⟩
    intro line2 h2
    exact normalize_ftdna_cols U line2 c0 c1 c2 c3 _
      (take_shape 4 (Split (Replace line (Char.ofNat 34) []) ',')
        (Split (Replace line2 (Char.ofNat 34) []) ',') [c0, c1, c2, c3] rest rfl hc h2) hne
  · obtain ⟨c0, c1, c2, c3, c4, c5, rest, hc⟩ := shape6 (Split line '\t') hlen
    have hne : c0 ≠ "rsid".toList := by
      intro h0
      have hh : (Split line '\t').head? ≠ some "rsid".toList := of_decide_eq_false hhead
      apply hh
      rw [hc, h0]
      rfl
    refine ⟨_, normalize_ancestry_cols U line c0 c1 c2 c3 c4 c5 rest hc hne, ?_⟩
    intro line2 h2
    exact normalize_ancestry_cols U line2 c0 c1 c2 c3 c4 c5 _
      (take_shape 6 (Split line '\t') (Split line2 '\t') [c0, c1, c2, c3, c4, c5] rest rfl
        hc h2) hne
  · obtain ⟨c0, c1, c2, c3, c4, c5, rest, hc⟩ := shape6 (Split line ',') hlen
    have hne : c0 ≠ "name".toList := by
      intro h0
      have hh : (Split line ',').head? ≠ some "name".toList := of_decide_eq_false hhead
      apply hh
      rw [hc, h0]
      rfl
    refine ⟨_, normalize_decodeme_cols U line c0 c1 c2 c3 c4 c5 rest hc hne, ?_⟩
    intro line2 h2
    exact normalize_decodeme_cols U line2 c0 c1 c2 c3 c4 c5 _
      (take_shape 6 (Split line ',') (Split line2 ',') [c0, c1, c2, c3, c4, c5] rest rfl
        hc h2) hne
  · obtain ⟨c0, c1, rest, hc⟩ := shape2 (Split line '\t') hlen
    cases hmt : (HasPrefix c0 "MT".toList || HasPrefix c0 "mt".toList) with
    | true =>
      refine ⟨_, normalize_iyg_mt_cols U line c0 c1 rest hc hmt, ?_⟩
      intro line2 h2
      exact normalize_iyg_mt_cols U line2 c0 c1 _
        (take_shape 2 (Split line '\t') (Split line2 '\t') [c0, c1] rest rfl hc h2) hmt
    | false =>
      refine ⟨_, normalize_iyg_plain_cols U line c0 c1 rest hc hmt, ?_⟩
      intro line2 h2
      exact normalize_iyg_plain_cols U line2 c0 c1 _
        (take_shape 2 (Split line '\t') (Split line2 '\t') [c0, c1] rest rfl hc h2) hmt

/-! ## Splitting, replacing and joining -/

theorem Split_ne_nil (s : Str) (sep : Char) : Split s sep ≠ [] := by
  cases s with
  | nil => simp [Split]
  | cons c rest =>
    unfold Split
    by_cases hc : c = sep
    · rw [if_pos hc]; simp
    · rw [if_neg hc]
      cases Split rest sep <;> simp

theorem Split_cons_sep (s : Str) (sep : Char) : Split (sep :: s) sep = [] :: Split s sep := by
  rw [Split, if_pos rfl]

theorem Split_cons_other (c : Char) (s : Str) (sep : Char) (h : c ≠ sep) :
    Split (c :: s) sep
      = (match Split s sep with
         | [] => [[c]]
         | w :: ws => (c :: w) :: ws) := by
  rw [Split, if_neg h]

theorem Split_chars (s : Str) (sep : Char) :
    ∀ col ∈ Split s sep, ∀ ch ∈ col, ch ∈ s := by
  induction s with
  | nil =>
    intro col hcol ch hch
    simp only [Split, List.mem_singleton] at hcol
    rw [hcol] at hch
    exact hch
  | cons c rest ih =>
    intro col hcol ch hch
    unfold Split at hcol
    by_cases hc : c = sep
    · rw [if_pos hc] at hcol
      rcases List.mem_cons.mp hcol with h | h
      · rw [h] at hch; cases hch
      · exact List.mem_cons_of_mem _ (ih col h ch hch)
    · rw [if_neg hc] at hcol
      cases hS : Split rest sep with
      | nil =>
        rw [hS] at hcol
        simp only [List.mem_singleton] at hcol
        rw [hcol] at hch
        simp only [List.mem_singleton] at hch
        rw [hch]
        exact List.mem_cons_self _ _
      | cons w ws =>
        rw [hS] at hcol
        rcases List.mem_cons.mp hcol with h | h
        · rw [h] at hch
          rcases List.mem_cons.mp hch with h2 | h2
          · rw [h2]; exact List.mem_cons_self _ _
          · exact List.mem_cons_of_mem _ (ih w (by rw [hS]; exact List.mem_cons_self _ _) ch h2)
        · exact List.mem_cons_of_mem _
            (ih col (by rw [hS]; exact List.mem_cons_of_mem _ h) ch hch)

theorem Replace_delete_chars (s : Str) (old : Char) :
    ∀ ch ∈ Replace s old [], ch ∈ s ∧ ch ≠ old := by
  induction s with
  | nil => intro ch hch; cases hch
  | cons c rest ih =>
    intro ch hch
    have hstep : Replace (c :: rest) old [] = (if c = old then [] else [c]) ++ Replace rest old [] := by
      simp only [Replace, List.flatMap_cons]
    rw [hstep] at hch
    rcases List.mem_append.mp hch with h | h
    · by_cases hc : c = old
      · rw [if_pos hc] at h; cases h
      · rw [if_neg hc] at h
        simp only [List.mem_singleton] at h
        rw [h]
        exact ⟨List.mem_cons_self _ _, hc⟩
    · exact ⟨List.mem_cons_of_mem _ (ih ch h).1, (ih ch h).2⟩

theorem Split_comma_to_tab (s : Str) (h : '\t' ∉ s) :
    Split (Replace s ',' ['\t']) '\t' = Split s ',' := by
  induction s with
  | nil => rfl
  | cons c rest ih =>
    have hrest : '\t' ∉ rest := fun hc => h (List.mem_cons_of_mem _ hc)
    have hct : c ≠ '\t' := fun hc => h (by rw [hc]; exact List.mem_cons_self _ _)
    have hstep : Replace (c :: rest) ',' ['\t']
        = (if c = ',' then ['\t'] else [c]) ++ Replace rest ',' ['\t'] := by
      simp only [Replace, List.flatMap_cons]
    rw [hstep]
    by_cases hc : c = ','
    · rw [if_pos hc, hc]
      show Split ('\t' :: Replace rest ',' ['\t']) '\t' = Split (',' :: rest) ','
      rw [Split_cons_sep, Split_cons_sep, ih hrest]
    · rw [if_neg hc]
      show Split (c :: Replace rest ',' ['\t']) '\t' = Split (c :: rest) ','
      rw [Split_cons_other _ _ _ hct, Split_cons_other _ _ _ hc, ih hrest]

theorem Join_append_last (xs : List Str) (last sep : Str) :
    last <:+ Join (xs ++ [last]) sep := by
  induction xs with
  | nil => exact List.suffix_refl _
  | cons a rest ih =>
    cases rest with
    | nil =>
      show last <:+ a ++ sep ++ last
      exact List.suffix_append _ _
    | cons b r =>
      show last <:+ a ++ sep ++ Join (b :: r ++ [last]) sep
      exact List.IsSuffix.trans ih (List.suffix_append _ _)

theorem connectionParams_eq_spec (username password database port : Str) :
    connectionParams username password database port
      = connectionParamsSpec username password database port := by
  unfold connectionParams connectionParamsSpec
  cases username <;> cases password <;> cases port <;> simp

theorem asciiCase_upper_quote (c : Char) (h : asciiCase.upper c = Char.ofNat 34) :
    c = Char.ofNat 34 := by
  have h2 : c.toUpper = Char.ofNat 34 := h
  rcases toUpper_cases c with ⟨h1, _⟩ | ⟨n, h1, h3, rfl⟩
  · rw [← h1]; exact h2
  · revert h2
    interval_cases n <;> decide

/-! ## Where the characters of a name come from -/

theorem toLower_cases (c : Char) :
    (c.toLower = c ∧ ¬ (65 ≤ c.toNat ∧ c.toNat ≤ 90)) ∨
      (∃ n, 65 ≤ n ∧ n ≤ 90 ∧ c = Char.ofNat n) := by
  by_cases h : 65 ≤ c.toNat ∧ c.toNat ≤ 90
  · exact Or.inr ⟨c.toNat, h.1, h.2, (Char.ofNat_toNat c).symm⟩
  · refine Or.inl ⟨?_, h⟩
    unfold Char.toLower
    simp only [ge_iff_le]
    rw [if_neg h]

theorem asciiCase_lower_not_upper (c : Char) : (asciiCase.lower c).isUpper = false := by
  show c.toLower.isUpper = false
  rcases toLower_cases c with ⟨h, hn⟩ | ⟨n, h1, h2, rfl⟩
  · rw [h]
    unfold Char.isUpper
    have hv : c.toNat = c.val.toNat := rfl
    rw [hv] at hn
    rw [Bool.and_eq_false_iff]
    simp only [ge_iff_le, decide_eq_false_iff_not]
    by_contra hc
    push_neg at hc
    exact hn ⟨hc.1, hc.2⟩
  · interval_cases n <;> decide

theorem index_mem (xs : List Str) (i : Nat) (x : Str) (h : index xs i = .ok x) : x ∈ xs :=
  List.get?_mem (index_ok_inv xs i x h)

/-- Every character of the first entry handed to the field assembly is a
character of the line, a lower-cased character, or a character of a value of
`db_snp_snps`. -/
theorem fixLinelist_name_chars (U : CaseTables) (filetype line : Str) (ll : List Str)
    (h : fixLinelist U filetype line = .ok (some ll)) (n : Str)
    (hn : ll.get? 0 = some n) :
    ∀ ch ∈ n, ch ∈ line ∨ (∃ d, ch = U.lower d) ∨ (∃ kv ∈ db_snp_snps, ch ∈ kv.2) := by
  intro ch hch
  by_cases hft : filetype ∈ supportedFiletypes
  · simp only [supportedFiletypes, List.mem_cons, List.mem_singleton, List.not_mem_nil,
      or_false] at hft
    rcases hft with hf | hf | hf | hf | hf | hf <;> subst hf
    · rw [fixLinelist_23andme] at h
      cases h
      exact Or.inl (Split_chars _ _ n (List.get?_mem hn) ch hch)
    · rw [fixLinelist_ftdna] at h
      obtain ⟨l0, h0, h⟩ := bind_ok_inv _ _ _ h
      by_cases hh : l0 = "rsid".toList
      · rw [if_pos hh] at h; cases h
      · rw [if_neg hh] at h
        cases h
        exact Or.inl (Replace_delete_chars line _ ch
          (Split_chars _ _ n (List.get?_mem hn) ch hch)).1
    · rw [fixLinelist_ancestry] at h
      obtain ⟨l0, h0, h⟩ := bind_ok_inv _ _ _ h
      by_cases hh : l0 = "rsid".toList
      · rw [if_pos hh] at h; cases h
      · rw [if_neg hh] at h
        obtain ⟨l1, _, h⟩ := bind_ok_inv _ _ _ h
        obtain ⟨l3, _, h⟩ := bind_ok_inv _ _ _ h
        obtain ⟨l4, _, h⟩ := bind_ok_inv _ _ _ h
        obtain ⟨l5, _, h⟩ := bind_ok_inv _ _ _ h
        cases h
        cases hn
        exact Or.inl (Split_chars _ _ _ (index_mem _ _ _ h0) ch hch)
    · rw [fixLinelist_decodeme] at h
      obtain ⟨l0, h0, h⟩ := bind_ok_inv _ _ _ h
      by_cases hh : l0 = "name".toList
      · rw [if_pos hh] at h; cases h
      · rw [if_neg hh] at h
        obtain ⟨l2, _, h⟩ := bind_ok_inv _ _ _ h
        obtain ⟨l3, _, h⟩ := bind_ok_inv _ _ _ h
        obtain ⟨l5, _, h⟩ := bind_ok_inv _ _ _ h
        cases h
        cases hn
        exact Or.inl (Split_chars _ _ _ (index_mem _ _ _ h0) ch hch)
    · rw [fixLinelist_vcf] at h
      obtain ⟨l8, _, h⟩ := bind_ok_inv _ _ _ h
      obtain ⟨l9, _, h⟩ := bind_ok_inv _ _ _ h
      obtain ⟨gt, _, h⟩ := bind_ok_inv _ _ _ h
      obtain ⟨l3, _, h⟩ := bind_ok_inv _ _ _ h
      obtain ⟨l4, _, h⟩ := bind_ok_inv _ _ _ h
      obtain ⟨l2, h2, h⟩ := bind_ok_inv _ _ _ h
      obtain ⟨l0, _, h⟩ := bind_ok_inv _ _ _ h
      obtain ⟨l1, _, h⟩ := bind_ok_inv _ _ _ h
      cases h
      cases hn
      unfold ToLower at hch
      obtain ⟨d, _, hd⟩ := List.mem_map.mp hch
      exact Or.inr (Or.inl ⟨d, hd.symm⟩)
    · rw [fixLinelist_iyg] at h
      obtain ⟨name, h0, h⟩ := bind_ok_inv _ _ _ h
      by_cases hmt : (HasPrefix name "MT".toList || HasPrefix name "mt".toList) = true
      · rw [if_pos hmt] at h
        obtain ⟨l1, _, h⟩ := bind_ok_inv _ _ _ h
        cases h
        cases hn
        cases hl : lookupAlias db_snp_snps name with
        | none =>
          rw [hl] at hch
          exact Or.inl (Split_chars _ _ _ (index_mem _ _ _ h0) ch hch)
        | some v =>
          rw [hl] at hch
          obtain ⟨k, hk⟩ := lookupAlias_mem _ _ _ hl
          exact Or.inr (Or.inr ⟨(k, v), hk, hch⟩)
      · rw [if_neg hmt] at h
        obtain ⟨l0, h0b, h⟩ := bind_ok_inv _ _ _ h
        obtain ⟨l1, _, h⟩ := bind_ok_inv _ _ _ h
        cases h
        cases hn
        exact Or.inl (Split_chars _ _ _ (index_mem _ _ _ h0b) ch hch)
  · rw [fixLinelist_unknown U filetype line hft] at h
    cases h

/-! ## The allele loop of the VCF branch on any genotype -/

theorem genotype_parsed_general (ref alt : Str) (parts : List Str) :
    ∀ acc : Str,
      genotype_parsed ref alt parts acc
        = acc ++ parts.flatMap
            (fun p => if p = "0".toList then ref else if p = "1".toList then alt else []) := by
  induction parts with
  | nil => intro acc; simp [genotype_parsed]
  | cons p rest ih =>
    intro acc
    by_cases h0 : p = "0".toList
    · simp only [genotype_parsed, if_pos h0, List.flatMap_cons]
      rw [ih, List.append_assoc]
    · by_cases h1 : p = "1".toList
      · simp only [genotype_parsed, if_neg h0, if_pos h1, List.flatMap_cons]
        rw [ih, List.append_assoc]
      · simp only [genotype_parsed, if_neg h0, if_neg h1, List.flatMap_cons]
        rw [ih, List.nil_append]

theorem allele_length (ref alt : Str) (parts : List Str) :
    (parts.flatMap
        (fun p => if p = "0".toList then ref else if p = "1".toList then alt else [])).length
      = parts.count "0".toList * ref.length + parts.count "1".toList * alt.length := by
  induction parts with
  | nil => simp
  | cons p rest ih =>
    have h10 : ¬ ("1".toList = "0".toList) := by decide
    have h01 : ¬ ("0".toList = "1".toList) := by decide
    rw [List.flatMap_cons, List.length_append, ih]
    by_cases h0 : p = "0".toList
    · subst h0
      rw [if_pos rfl, List.count_cons_self, List.count_cons_of_ne h10]
      ring
    · by_cases h1 : p = "1".toList
      · subst h1
        rw [if_neg h10, if_pos rfl, List.count_cons_self, List.count_cons_of_ne h01]
        ring
      · rw [if_neg h0, if_neg h1, List.count_cons_of_ne (fun hc => h0 hc.symm),
          List.count_cons_of_ne (fun hc => h1 hc.symm)]
        simp

theorem allele_empty (ref alt : Str) (parts : List Str)
    (h : ∀ p ∈ parts, p ≠ "0".toList ∧ p ≠ "1".toList) :
    parts.flatMap
        (fun p => if p = "0".toList then ref else if p = "1".toList then alt else []) = [] := by
  induction parts with
  | nil => rfl
  | cons p rest ih =>
    have hp := h p (List.mem_cons_self _ _)
    rw [List.flatMap_cons, if_neg hp.1, if_neg hp.2, List.nil_append]
    exact ih (fun q hq => h q (List.mem_cons_of_mem _ hq))

theorem normalize_vcf_cols (U : CaseTables) (line : Str)
    (c0 c1 c2 c3 c4 c5 c6 c7 c8 c9 : Str) (rest : List Str)
    (pre : List Str) (e : Str) (post : List Str) (g : Str)
    (hcols : Split line '\t' = c0 :: c1 :: c2 :: c3 :: c4 :: c5 :: c6 :: c7 :: c8 :: c9 :: rest)
    (hfmt : Split c8 ':' = pre ++ e :: post)
    (hpre : ∀ x ∈ pre, x ≠ "GT".toList ∧ x ≠ "gt".toList)
    (he : e = "GT".toList ∨ e = "gt".toList)
    (hg : (Split c9 ':').get? pre.length = some g) :
    normalize U "23andme-exome-vcf".toList line
      = .ok (some { snp_name := ToLower U c2, chromosome := ToUpper U c0, position := c1,
                    allele := ToUpper U (genotype_parsed c3 c4 (Split g '/') []) }) := by
  have h0 : index (c0 :: c1 :: c2 :: c3 :: c4 :: c5 :: c6 :: c7 :: c8 :: c9 :: rest) 0
      = .ok c0 := rfl
  have h1 : index (c0 :: c1 :: c2 :: c3 :: c4 :: c5 :: c6 :: c7 :: c8 :: c9 :: rest) 1
      = .ok c1 := rfl
  have h2 : index (c0 :: c1 :: c2 :: c3 :: c4 :: c5 :: c6 :: c7 :: c8 :: c9 :: rest) 2
      = .ok c2 := rfl
  have h3 : index (c0 :: c1 :: c2 :: c3 :: c4 :: c5 :: c6 :: c7 :: c8 :: c9 :: rest) 3
      = .ok c3 := rfl
  have h4 : index (c0 :: c1 :: c2 :: c3 :: c4 :: c5 :: c6 :: c7 :: c8 :: c9 :: rest) 4
      = .ok c4 := rfl
  have h8 : index (c0 :: c1 :: c2 :: c3 :: c4 :: c5 :: c6 :: c7 :: c8 :: c9 :: rest) 8
      = .ok c8 := rfl
  have h9 : index (c0 :: c1 :: c2 :: c3 :: c4 :: c5 :: c6 :: c7 :: c8 :: c9 :: rest) 9
      = .ok c9 := rfl
  have hgi : indexInt (Split c9 ':') (genotype_index (Split c8 ':') 0) = .ok g := by
    rw [hfmt, genotype_index_first pre e post he 0 hpre]
    unfold indexInt
    rw [if_neg (by omega)]
    simp only [Nat.zero_add, Int.toNat_ofNat]
    exact index_of_get? _ _ _ hg
  apply normalize_of_fixLinelist U _ _ _ _ _ _ []
  rw [fixLinelist_vcf, hcols, h8, h9]
  simp only [Except.bind, hgi, h0, h1, h2, h3, h4]

/-! ## The tokens the scanner delivers -/

theorem takeWhile_prefix_fits (P : Str → Bool) (pre : List Str) (l : Str) (post : List Str)
    (h : ∀ p ∈ pre, P p = true) :
    (pre ++ l :: post).takeWhile P
      = pre ++ (if P l = true then l :: post.takeWhile P else []) := by
  induction pre with
  | nil =>
    by_cases hl : P l = true
    · rw [if_pos hl, List.nil_append, List.takeWhile_cons_of_pos hl]
      rfl
    · rw [if_neg hl, List.nil_append, List.takeWhile_cons_of_neg hl]
      rfl
  | cons a rest ih =>
    rw [List.cons_append, List.takeWhile_cons_of_pos (h a (List.mem_cons_self _ _)),
      ih (fun p hp => h p (List.mem_cons_of_mem _ hp))]
    rfl

theorem scanTokens_delivered (data : Str) (pre : List Str) (l : Str) (post : List Str)
    (hlines : rawLines data = pre ++ l :: post)
    (hpre : ∀ p ∈ pre, byteLen p < MaxScanTokenSize)
    (hl : byteLen l < MaxScanTokenSize) :
    ∃ later, scanTokens data = pre.map dropCR ++ dropCR l :: later := by
  unfold scanTokens
  rw [hlines, takeWhile_prefix_fits _ pre l post (fun p hp => decide_eq_true (hpre p hp)),
    if_pos (decide_eq_true hl), List.map_append, List.map_cons]
  exact ⟨_, rfl⟩

theorem scanTokens_stopped (data : Str) (pre : List Str) (l : Str) (post : List Str)
    (hlines : rawLines data = pre ++ l :: post)
    (hpre : ∀ p ∈ pre, byteLen p < MaxScanTokenSize)
    (hl : MaxScanTokenSize ≤ byteLen l) :
    scanTokens data = pre.map dropCR := by
  unfold scanTokens
  rw [hlines, takeWhile_prefix_fits _ pre l post (fun p hp => decide_eq_true (hpre p hp)),
    if_neg (by rw [decide_eq_true_iff]; omega), List.append_nil]

theorem mem_scanTokens (data t : Str) (h : t ∈ scanTokens data) :
    ∃ l ∈ rawLines data, byteLen l < MaxScanTokenSize ∧ t = dropCR l := by
  unfold scanTokens at h
  obtain ⟨l, hl, rfl⟩ := List.mem_map.mp h
  have hp := List.mem_takeWhile_imp (p := fun l => decide (byteLen l < MaxScanTokenSize)) hl
  exact ⟨l, (List.takeWhile_sublist _).subset hl, of_decide_eq_true hp, rfl⟩

theorem HasPrefix_cons_hash (c : Char) (x : Str) :
    HasPrefix (c :: x) "#".toList = decide (c = '#') := by
  by_cases hc : c = '#'
  · cases x <;> simp [HasPrefix, hc]
  · cases x <;> simp [HasPrefix, hc]

theorem HasPrefix_dropCR (l : Str) :
    HasPrefix (dropCR l) "#".toList = HasPrefix l "#".toList := by
  unfold dropCR
  by_cases h : l.getLast? = some '\r'
  · rw [if_pos h]
    rcases l with _ | ⟨c, _ | ⟨d, rest⟩⟩
    · rfl
    · have hc : c = '\r' := by
        simp at h
        exact h
      rw [hc]
      decide
    · have hd : (c :: d :: rest).dropLast = c :: (d :: rest).dropLast := rfl
      rw [hd, HasPrefix_cons_hash, HasPrefix_cons_hash]
  · rw [if_neg h]

theorem Split_no_sep (s : Str) (sep : Char) (h : sep ∉ s) : Split s sep = [s] := by
  induction s with
  | nil => rfl
  | cons c rest ih =>
    have hc : c ≠ sep := fun hc => h (by rw [hc]; exact List.mem_cons_self _ _)
    rw [Split_cons_other c rest sep hc, ih (fun hm => h (List.mem_cons_of_mem _ hm))]

theorem Split_append_sep (a : Str) (sep : Char) (rest : Str) (h : sep ∉ a) :
    Split (a ++ sep :: rest) sep = a :: Split rest sep := by
  induction a with
  | nil => exact Split_cons_sep rest sep
  | cons c a2 ih =>
    have hc : c ≠ sep := fun hc => h (by rw [hc]; exact List.mem_cons_self _ _)
    rw [List.cons_append, Split_cons_other c _ sep hc,
      ih (fun hm => h (List.mem_cons_of_mem _ hm))]

theorem byteLen_cons (c : Char) (s : Str) : byteLen (c :: s) = c.utf8Size + byteLen s := by
  simp [byteLen]

theorem byteLen_replicate (n : Nat) (c : Char) :
    byteLen (List.replicate n c) = n * c.utf8Size := by
  induction n with
  | zero => simp [byteLen]
  | succ k ih =>
    rw [List.replicate_succ, byteLen_cons, ih]
    ring

/-- A file whose first line does not fit the scanner's buffer: nothing is
delivered and the run goes straight to the end of `main`. -/
theorem runFile_first_line_too_long (U : CaseTables) (db : Storage) (ctx : Context)
    (data l : Str) (post : List Str) (hlines : rawLines data = l :: post)
    (hl : MaxScanTokenSize ≤ byteLen l) :
    runFile U db ctx data = finish db [Event.begin] := by
  unfold runFile
  rw [scanTokens_stopped data [] l post hlines (fun p hp => by cases hp) hl]
  rfl

theorem dropCR_nil_short (e : Str) (h : dropCR e = []) : byteLen e < MaxScanTokenSize := by
  rcases e with _ | ⟨c, _ | ⟨d, rest⟩⟩
  · decide
  · unfold dropCR at h
    by_cases hc : [c].getLast? = some '\r'
    · have hc2 : c = '\r' := by
        simp at hc
        exact hc
      rw [hc2]
      decide
    · rw [if_neg hc] at h
      cases h
  · unfold dropCR at h
    by_cases hc : (c :: d :: rest).getLast? = some '\r'
    · rw [if_pos hc] at h
      have hd : (c :: d :: rest).dropLast = c :: (d :: rest).dropLast := rfl
      rw [hd] at h
      cases h
    · rw [if_neg hc] at h
      cases h

theorem filter_takeWhile_comments (P : Str → Bool) (lines : List Str)
    (h : ∀ l ∈ lines, HasPrefix l "#".toList = true → P l = true) :
    (lines.takeWhile P).filter (fun l => !HasPrefix l "#".toList)
      = (lines.filter (fun l => !HasPrefix l "#".toList)).takeWhile P := by
  induction lines with
  | nil => rfl
  | cons a rest ih =>
    have hrest := ih (fun l hl => h l (List.mem_cons_of_mem _ hl))
    cases hc : HasPrefix a "#".toList with
    | true =>
      have hPa : P a = true := h a (List.mem_cons_self _ _) hc
      rw [List.takeWhile_cons_of_pos hPa, List.filter_cons_of_neg (by rw [hc]; decide),
        List.filter_cons_of_neg (by rw [hc]; decide)]
      exact hrest
    | false =>
      rw [List.filter_cons_of_pos (by rw [hc]; rfl)]
      by_cases hPa : P a = true
      · rw [List.takeWhile_cons_of_pos hPa, List.takeWhile_cons_of_pos hPa,
          List.filter_cons_of_pos (by rw [hc]; rfl), hrest]
      · rw [List.takeWhile_cons_of_neg hPa, List.takeWhile_cons_of_neg hPa]
        rfl

theorem filter_map_dropCR (lines : List Str) :
    (lines.map dropCR).filter (fun l => !HasPrefix l "#".toList)
      = (lines.filter (fun l => !HasPrefix l "#".toList)).map dropCR := by
  induction lines with
  | nil => rfl
  | cons a rest ih =>
    cases hc : HasPrefix a "#".toList with
    | true =>
      rw [List.map_cons, List.filter_cons_of_neg (by rw [HasPrefix_dropCR, hc]; decide),
        List.filter_cons_of_neg (by rw [hc]; decide)]
      exact ih
    | false =>
      rw [List.map_cons, List.filter_cons_of_pos (by rw [HasPrefix_dropCR, hc]; rfl),
        List.filter_cons_of_pos (by rw [hc]; rfl), List.map_cons, ih]

/-! ## A rejected insert ends the run -/

theorem Join_eq_intercalate (xs : List Str) (sep : Str) :
    Join xs sep = List.intercalate sep xs := by
  induction xs with
  | nil => rfl
  | cons a rest ih =>
    cases rest with
    | nil => simp [Join, List.intercalate, List.intersperse]
    | cons b r =>
      have hstep : Join (a :: b :: r) sep = a ++ sep ++ Join (b :: r) sep := rfl
      rw [hstep, ih]
      simp [List.intercalate, List.intersperse]

/-! ## The claims -/

/-- C1 (defect in the code): under filetype `IYG` the raw line `MT-T3027C<TAB>A`
gives the record named `mt-t3027c`, not `rs199838004`: the line is lower-cased
before the table is consulted, and no lower-cased key of `db_snp_snps` is a key
of the table, so the alias replacement never takes place.  The chromosome is
`MT` as claimed. -/
theorem iyg_alias_not_applied (U : CaseTables) :
    processLine U "IYG".toList "MT-T3027C\tA".toList
        = .ok (some { snp_name := "mt-t3027c".toList, chromosome := "MT".toList,
                      position := "-3027".toList, allele := "A".toList }) ∧
      ∀ kv ∈ db_snp_snps, lookupAlias db_snp_snps (ToLower U kv.1) = none := by
  have h1 : ToLower U (Trim "MT-T3027C\tA".toList "\n".toList) = "mt-t3027c\ta".toList := by
    rw [ToLower_ascii U _ (by decide)]; decide
  have h2 : fixLinelist U "IYG".toList "mt-t3027c\ta".toList
      = .ok (some ["mt-t3027c".toList, "MT".toList, "-3027".toList, "a".toList]) := by
    rfl
  have h3 : ToUpper U "MT".toList = "MT".toList := by
    rw [ToUpper_ascii U _ (by decide)]; decide
  have h4 : ToUpper U "a".toList = "A".toList := by
    rw [ToUpper_ascii U _ (by decide)]; decide
  refine ⟨?_, ?_⟩
  · unfold processLine
    rw [if_neg (by decide), h1]
    unfold normalize
    rw [h2]
    simp only [Except.bind, assemble, index, List.get?, Except.map, h3, h4]
  · intro kv hkv
    have hasc : ∀ c ∈ kv.1, c.toNat < 128 := by
      revert kv; decide
    rw [ToLower_ascii U _ hasc]
    revert kv; decide

/-- C2 (counterexample): two identical `23andme` lines naming `rs9`, with both
snapshots empty, make the run issue both inserts twice; the second line is not a
no-op. -/
theorem dedup_counterexample :
    run asciiCase okStorage
        { genotype_id := "7".toList, user_id := "3".toList, filetype := "23andme".toList,
          known_snps := [], known_user_snps := [] }
        ["rs9\t1\t5\tAA".toList, "rs9\t1\t5\tAA".toList]
      = { trace := [Event.begin,
            Event.insertSnp "rs9".toList "1".toList "5".toList,
            Event.insertUserSnp "AA".toList "7".toList "3".toList "rs9".toList,
            Event.insertSnp "rs9".toList "1".toList "5".toList,
            Event.insertUserSnp "AA".toList "7".toList "3".toList "rs9".toList,
            Event.commit, Event.vacuumSnps, Event.vacuumUserSnps],
          fatal := none } := by
  decide

/-- C2 (amended): the snapshots are never updated during a run.  For two lines
that normalise to records with the same name, absent from both snapshots, and a
storage that accepts every statement, the run issues the global insert and the
user insert for the first line and again for the second. -/
theorem duplicate_lines_insert_twice (U : CaseTables) (db : Storage) (ctx : Context)
    (l1 l2 : Str) (r1 r2 : Record)
    (h1 : processLine U ctx.filetype l1 = .ok (some r1))
    (h2 : processLine U ctx.filetype l2 = .ok (some r2))
    (hname : r1.snp_name = r2.snp_name)
    (hK : r1.snp_name ∉ ctx.known_snps) (hU : r1.snp_name ∉ ctx.known_user_snps)
    (hdb : ∀ t e, db t e = true) :
    run U db ctx [l1, l2]
      = { trace := [Event.begin,
            Event.insertSnp r1.snp_name r1.chromosome r1.position,
            Event.insertUserSnp r1.allele ctx.genotype_id ctx.user_id r1.snp_name,
            Event.insertSnp r2.snp_name r2.chromosome r2.position,
            Event.insertUserSnp r2.allele ctx.genotype_id ctx.user_id r2.snp_name,
            Event.commit, Event.vacuumSnps, Event.vacuumUserSnps],
          fatal := none } := by
  have hK2 : r2.snp_name ∉ ctx.known_snps := hname ▸ hK
  have hU2 : r2.snp_name ∉ ctx.known_user_snps := hname ▸ hU
  simp [run, loop, h1, h2, reconcile, exec, finish, hK, hU, hK2, hU2, hdb]

theorem duplicate_lines_insert_twice_witness :
    run asciiCase okStorage
        { genotype_id := "7".toList, user_id := "3".toList, filetype := "23andme".toList,
          known_snps := ["rs1".toList], known_user_snps := [] }
        ["rs9\t1\t5\tAA".toList, "RS9\t1\t6\tCC".toList]
      = { trace := [Event.begin,
            Event.insertSnp "rs9".toList "1".toList "5".toList,
            Event.insertUserSnp "AA".toList "7".toList "3".toList "rs9".toList,
            Event.insertSnp "rs9".toList "1".toList "6".toList,
            Event.insertUserSnp "CC".toList "7".toList "3".toList "rs9".toList,
            Event.commit, Event.vacuumSnps, Event.vacuumUserSnps],
          fatal := none } :=
  duplicate_lines_insert_twice asciiCase okStorage
    { genotype_id := "7".toList, user_id := "3".toList, filetype := "23andme".toList,
      known_snps := ["rs1".toList], known_user_snps := [] }
    "rs9\t1\t5\tAA".toList "RS9\t1\t6\tCC".toList
    { snp_name := "rs9".toList, chromosome := "1".toList, position := "5".toList,
      allele := "AA".toList }
    { snp_name := "rs9".toList, chromosome := "1".toList, position := "6".toList,
      allele := "CC".toList }
    (by decide) (by decide) rfl (by decide) (by decide) (fun _ _ => rfl)

/-- C3 (counterexample): an empty line in a `23andme` file is not skipped; the
loop body dies on it with an index out of range, after the first line's inserts
and before any `COMMIT`. -/
theorem empty_line_counterexample :
    processLine asciiCase "23andme".toList [] = .error Fatal.indexOutOfRange ∧
    runFile asciiCase okStorage
        { genotype_id := "7".toList, user_id := "3".toList, filetype := "23andme".toList,
          known_snps := [], known_user_snps := [] }
        "rs1\t1\t5\tAA\n\nrs2\t1\t6\tCC\n".toList
      = { trace := [Event.begin,
            Event.insertSnp "rs1".toList "1".toList "5".toList,
            Event.insertUserSnp "AA".toList "7".toList "3".toList "rs1".toList],
          fatal := some Fatal.indexOutOfRange } := by
  decide

/-- C3 (amended): empty lines are not filtered.  For each of the six supported
filetypes an empty line reaches the normaliser and fails there with an index out
of range (no record, no skip).  When a file has an empty line `e` (empty, or
only a carriage return) and every line before it is shorter than
`MaxScanTokenSize` bytes, the scanner delivers it, and the run ends with a
fatal error and issues no `COMMIT`. -/
theorem empty_line_is_fatal (U : CaseTables) (db : Storage) (ctx : Context) (data : Str)
    (pre : List Str) (e : Str) (post : List Str)
    (hft : ctx.filetype ∈ supportedFiletypes)
    (hlines : rawLines data = pre ++ e :: post)
    (he : dropCR e = [])
    (hpre : ∀ l ∈ pre, byteLen l < MaxScanTokenSize) :
    processLine U ctx.filetype [] = .error Fatal.indexOutOfRange ∧
      [] ∈ scanTokens data ∧
      (runFile U db ctx data).fatal ≠ none ∧
      Event.commit ∉ (runFile U db ctx data).trace := by
  have hp : processLine U ctx.filetype [] = .error Fatal.indexOutOfRange := by
    rw [processLine_not_comment U ctx.filetype [] rfl]
    exact normalize_empty U ctx.filetype hft
  obtain ⟨later, hlater⟩ :=
    scanTokens_delivered data pre e post hlines hpre (dropCR_nil_short e he)
  have hmem : [] ∈ scanTokens data := by
    rw [hlater, he]
    exact List.mem_append_right _ (List.mem_cons_self _ _)
  exact ⟨hp, hmem,
    loop_dies_of_mem U db ctx (scanTokens data) [Event.begin] (by decide) ⟨[], hmem, _, hp⟩⟩

theorem empty_line_is_fatal_witness :
    processLine asciiCase "ancestry".toList [] = .error Fatal.indexOutOfRange ∧
      [] ∈ scanTokens "rs1\t1\tx\t5\tA\tA\r\n\r\nrs2\t1\tx\t6\tC\tC\r\n".toList ∧
      (runFile asciiCase okStorage
        { genotype_id := "7".toList, user_id := "3".toList, filetype := "ancestry".toList,
          known_snps := [], known_user_snps := [] }
        "rs1\t1\tx\t5\tA\tA\r\n\r\nrs2\t1\tx\t6\tC\tC\r\n".toList).fatal ≠ none ∧
      Event.commit ∉ (runFile asciiCase okStorage
        { genotype_id := "7".toList, user_id := "3".toList, filetype := "ancestry".toList,
          known_snps := [], known_user_snps := [] }
        "rs1\t1\tx\t5\tA\tA\r\n\r\nrs2\t1\tx\t6\tC\tC\r\n".toList).trace :=
  empty_line_is_fatal asciiCase okStorage
    { genotype_id := "7".toList, user_id := "3".toList, filetype := "ancestry".toList,
      known_snps := [], known_user_snps := [] }
    "rs1\t1\tx\t5\tA\tA\r\n\r\nrs2\t1\tx\t6\tC\tC\r\n".toList
    ["rs1\t1\tx\t5\tA\tA\r".toList] "\r".toList ["rs2\t1\tx\t6\tC\tC\r".toList]
    (by decide) (by decide) (by decide) (by decide)

/-- C4 (counterexample): with the unknown filetype `foo` the run does not die
on a file that has no line, on a file with only a comment line, or on a file
whose only line is 70000 bytes long (the scanner delivers nothing): each time
it issues `COMMIT`. -/
theorem unknown_filetype_counterexample :
    runFile asciiCase okStorage
        { genotype_id := "7".toList, user_id := "3".toList, filetype := "foo".toList,
          known_snps := [], known_user_snps := [] } []
      = { trace := [Event.begin, Event.commit, Event.vacuumSnps, Event.vacuumUserSnps],
          fatal := none } ∧
    runFile asciiCase okStorage
        { genotype_id := "7".toList, user_id := "3".toList, filetype := "foo".toList,
          known_snps := [], known_user_snps := [] } "# header\n".toList
      = { trace := [Event.begin, Event.commit, Event.vacuumSnps, Event.vacuumUserSnps],
          fatal := none } ∧
    runFile asciiCase okStorage
        { genotype_id := "7".toList, user_id := "3".toList, filetype := "foo".toList,
          known_snps := [], known_user_snps := [] } (List.replicate 70000 'x')
      = { trace := [Event.begin, Event.commit, Event.vacuumSnps, Event.vacuumUserSnps],
          fatal := none } := by
  refine ⟨by decide, by decide, ?_⟩
  have hno : '\n' ∉ List.replicate 70000 'x' := by
    intro h
    have h2 := List.eq_of_mem_replicate h
    revert h2
    decide
  have hne : ¬ ((List.replicate 70000 'x' : Str) = []) := by
    rw [show (70000 : Nat) = 69999 + 1 from rfl, List.replicate_succ]
    exact List.cons_ne_nil _ _
  have hlines : rawLines (List.replicate 70000 'x') = [List.replicate 70000 'x'] := by
    unfold rawLines
    rw [Split_no_sep _ _ hno, if_neg]
    rw [List.getLast?_singleton]
    intro h
    exact hne (Option.some.inj h)
  rw [runFile_first_line_too_long asciiCase okStorage _ _ _ [] hlines
    (by rw [byteLen_replicate]; decide)]
  rfl

/-- C4 (amended): the filetype is only looked at inside the loop, after the
comment filter.  For a filetype that is none of the six, a file with a line
that does not start with `#`, that line and all lines before it shorter than
`MaxScanTokenSize` bytes, ends the run with the unknown-filetype error, with
nothing issued after `BEGIN` (no insert, no `COMMIT`); a file whose lines all
start with `#` and are shorter than `MaxScanTokenSize` bytes (or with no line)
goes straight to the end of `main`, which issues `COMMIT`. -/
theorem unknown_filetype_fatal (U : CaseTables) (db : Storage) (ctx : Context)
    (data : Str) (hft : ctx.filetype ∉ supportedFiletypes) :
    (∀ (pre : List Str) (l : Str) (post : List Str),
        rawLines data = pre ++ l :: post →
        (∀ p ∈ pre, byteLen p < MaxScanTokenSize) → byteLen l < MaxScanTokenSize →
        HasPrefix l "#".toList = false →
        runFile U db ctx data
          = { trace := [Event.begin], fatal := some Fatal.unknownFiletype }) ∧
      ((∀ l ∈ rawLines data, HasPrefix l "#".toList = true ∧ byteLen l < MaxScanTokenSize) →
        runFile U db ctx data = finish db [Event.begin]) := by
  refine ⟨?_, ?_⟩
  · intro pre l post hlines hpre hl hhash
    obtain ⟨later, hlater⟩ := scanTokens_delivered data pre l post hlines hpre hl
    apply loop_unknown U db ctx (scanTokens data) [Event.begin] hft
    refine ⟨dropCR l, ?_, ?_⟩
    · rw [hlater]
      exact List.mem_append_right _ (List.mem_cons_self _ _)
    · rw [HasPrefix_dropCR, hhash]
  · intro hall
    apply loop_all_comments U db ctx (scanTokens data) [Event.begin]
    intro t ht
    obtain ⟨l, hl, _, rfl⟩ := mem_scanTokens data t ht
    rw [HasPrefix_dropCR]
    exact (hall l hl).1

theorem unknown_filetype_fatal_witness :
    runFile asciiCase okStorage
        { genotype_id := "7".toList, user_id := "3".toList, filetype := "23andMe".toList,
          known_snps := [], known_user_snps := [] }
        "# c\nrs1\t1\t5\tAA\n".toList
      = { trace := [Event.begin], fatal := some Fatal.unknownFiletype } :=
  (unknown_filetype_fatal asciiCase okStorage
    { genotype_id := "7".toList, user_id := "3".toList, filetype := "23andMe".toList,
      known_snps := [], known_user_snps := [] }
    "# c\nrs1\t1\t5\tAA\n".toList (by decide)).1
    ["# c".toList] "rs1\t1\t5\tAA".toList [] (by decide) (by decide) (by decide) (by decide)

/-- C5: a `23andme-exome-vcf` line with at least ten tab-separated columns whose
column 8, split on `:`, has no element `GT` (or `gt`) is a fatal error of the
normaliser: `genotype_index` stays `-1` and the slice index panics.  The result
is neither a record nor a skip; the same holds for every raw line without a
leading `#` that the loop lower-cases to such a line. -/
theorem vcf_without_gt_is_fatal (U : CaseTables) (line : Str)
    (c0 c1 c2 c3 c4 c5 c6 c7 c8 c9 : Str) (rest : List Str)
    (hcols : Split line '\t' = c0 :: c1 :: c2 :: c3 :: c4 :: c5 :: c6 :: c7 :: c8 :: c9 :: rest)
    (hgt : ∀ e ∈ Split c8 ':', e ≠ "GT".toList ∧ e ≠ "gt".toList) :
    normalize U "23andme-exome-vcf".toList line = .error Fatal.indexOutOfRange ∧
      ∀ raw : Str, HasPrefix raw "#".toList = false → ToLower U (Trim raw "\n".toList) = line →
        processLine U "23andme-exome-vcf".toList raw = .error Fatal.indexOutOfRange := by
  have h8 : index (c0 :: c1 :: c2 :: c3 :: c4 :: c5 :: c6 :: c7 :: c8 :: c9 :: rest) 8
      = .ok c8 := rfl
  have h9 : index (c0 :: c1 :: c2 :: c3 :: c4 :: c5 :: c6 :: c7 :: c8 :: c9 :: rest) 9
      = .ok c9 := rfl
  have hn : normalize U "23andme-exome-vcf".toList line = .error Fatal.indexOutOfRange := by
    unfold normalize
    rw [fixLinelist_vcf, hcols, h8, h9]
    simp only [Except.bind]
    rw [genotype_index_none (Split c8 ':') 0 hgt]
    rfl
  refine ⟨hn, ?_⟩
  intro raw hraw hlow
  rw [processLine_not_comment U _ raw hraw, hlow]
  exact hn

theorem vcf_without_gt_is_fatal_witness :
    processLine asciiCase "23andme-exome-vcf".toList
        "1\t100\tRS5\tA\tG\t.\t.\t.\tDP:GQ\t3:9".toList
      = .error Fatal.indexOutOfRange :=
  (vcf_without_gt_is_fatal asciiCase "1\t100\trs5\ta\tg\t.\t.\t.\tdp:gq\t3:9".toList
    "1".toList "100".toList "rs5".toList "a".toList "g".toList ".".toList ".".toList
    ".".toList "dp:gq".toList "3:9".toList [] (by decide) (by decide)).2
    "1\t100\tRS5\tA\tG\t.\t.\t.\tDP:GQ\t3:9".toList (by decide) (by decide)

/-- C6: a `23andme-exome-vcf` line with at least ten tab-separated columns, whose
column 8 has its first `GT` element at index `pre.length`, whose column 9 has a
subfield `g` at that index, and whose `g` splits on `/` into parts `0` and `1`
only, normalises to the record with name `lowercase(col2)`, chromosome
`upper(col0)`, position `col1` and allele the upper-cased concatenation, in
order, of `col3` for each `0` and `col4` for each `1`; the same record comes out
of every raw line without a leading `#` that the loop lower-cases to such a
line. -/
theorem vcf_normalization (U : CaseTables) (line : Str)
    (c0 c1 c2 c3 c4 c5 c6 c7 c8 c9 : Str) (rest : List Str)
    (pre : List Str) (e : Str) (post : List Str) (g : Str)
    (hcols : Split line '\t' = c0 :: c1 :: c2 :: c3 :: c4 :: c5 :: c6 :: c7 :: c8 :: c9 :: rest)
    (hfmt : Split c8 ':' = pre ++ e :: post)
    (hpre : ∀ x ∈ pre, x ≠ "GT".toList ∧ x ≠ "gt".toList)
    (he : e = "GT".toList ∨ e = "gt".toList)
    (hg : (Split c9 ':').get? pre.length = some g)
    (hparts : ∀ p ∈ Split g '/', p = "0".toList ∨ p = "1".toList) :
    normalize U "23andme-exome-vcf".toList line
        = .ok (some { snp_name := ToLower U c2, chromosome := ToUpper U c0, position := c1,
                      allele := ToUpper U
                        ((Split g '/').flatMap (fun p => if p = "0".toList then c3 else c4)) }) ∧
      ∀ raw : Str, HasPrefix raw "#".toList = false → ToLower U (Trim raw "\n".toList) = line →
        processLine U "23andme-exome-vcf".toList raw
          = .ok (some { snp_name := ToLower U c2, chromosome := ToUpper U c0, position := c1,
                        allele := ToUpper U
                          ((Split g '/').flatMap
                            (fun p => if p = "0".toList then c3 else c4)) }) := by
  have h0 : index (c0 :: c1 :: c2 :: c3 :: c4 :: c5 :: c6 :: c7 :: c8 :: c9 :: rest) 0
      = .ok c0 := rfl
  have h1 : index (c0 :: c1 :: c2 :: c3 :: c4 :: c5 :: c6 :: c7 :: c8 :: c9 :: rest) 1
      = .ok c1 := rfl
  have h2 : index (c0 :: c1 :: c2 :: c3 :: c4 :: c5 :: c6 :: c7 :: c8 :: c9 :: rest) 2
      = .ok c2 := rfl
  have h3 : index (c0 :: c1 :: c2 :: c3 :: c4 :: c5 :: c6 :: c7 :: c8 :: c9 :: rest) 3
      = .ok c3 := rfl
  have h4 : index (c0 :: c1 :: c2 :: c3 :: c4 :: c5 :: c6 :: c7 :: c8 :: c9 :: rest) 4
      = .ok c4 := rfl
  have h8 : index (c0 :: c1 :: c2 :: c3 :: c4 :: c5 :: c6 :: c7 :: c8 :: c9 :: rest) 8
      = .ok c8 := rfl
  have h9 : index (c0 :: c1 :: c2 :: c3 :: c4 :: c5 :: c6 :: c7 :: c8 :: c9 :: rest) 9
      = .ok c9 := rfl
  have hgi : indexInt (Split c9 ':') (genotype_index (Split c8 ':') 0) = .ok g := by
    rw [hfmt, genotype_index_first pre e post he 0 hpre]
    unfold indexInt
    rw [if_neg (by omega)]
    simp only [Nat.zero_add, Int.toNat_ofNat]
    exact index_of_get? _ _ _ hg
  have hn : normalize U "23andme-exome-vcf".toList line
      = .ok (some { snp_name := ToLower U c2, chromosome := ToUpper U c0, position := c1,
                    allele := ToUpper U
                      ((Split g '/').flatMap (fun p => if p = "0".toList then c3 else c4)) }) := by
    unfold normalize
    rw [fixLinelist_vcf, hcols, h8, h9]
    simp only [Except.bind, hgi, h0, h1, h2, h3, h4]
    rw [genotype_parsed_eq c3 c4 (Split g '/') [] hparts]
    rfl
  refine ⟨hn, ?_⟩
  intro raw hraw hlow
  rw [processLine_not_comment U _ raw hraw, hlow]
  exact hn

theorem vcf_normalization_witness :
    processLine asciiCase "23andme-exome-vcf".toList
        "1\t100\tRS5\tA\tG\t.\t.\t.\tGT\t0/1".toList
      = .ok (some { snp_name := "rs5".toList, chromosome := "1".toList,
                    position := "100".toList, allele := "AG".toList }) :=
  (vcf_normalization asciiCase "1\t100\trs5\ta\tg\t.\t.\t.\tgt\t0/1".toList
    "1".toList "100".toList "rs5".toList "a".toList "g".toList ".".toList ".".toList
    ".".toList "gt".toList "0/1".toList [] [] "gt".toList [] "0/1".toList
    (by decide) (by decide) (by decide) (by decide) (by decide) (by decide)).2
    "1\t100\tRS5\tA\tG\t.\t.\t.\tGT\t0/1".toList (by decide) (by decide)

/-- C7: header rows are skipped.  When the lower-cased line has first column
`rsid` under `ancestry` (split on tab) or under `ftdna-illumina` (split on comma
after the double quotes are removed), or first column `name` under `decodeme`
(split on comma), the line yields no record and no error, and the loop goes on
with the trace unchanged, whatever the other columns are. -/
theorem header_rows_skipped (U : CaseTables) (db : Storage) (ctx : Context) (line : Str)
    (rest : List Str) (trace : List Event)
    (h : (ctx.filetype = "ancestry".toList ∧
            (Split (ToLower U (Trim line "\n".toList)) '\t').head? = some "rsid".toList) ∨
         (ctx.filetype = "ftdna-illumina".toList ∧
            (Split (Replace (ToLower U (Trim line "\n".toList)) (Char.ofNat 34) []) ',').head?
              = some "rsid".toList) ∨
         (ctx.filetype = "decodeme".toList ∧
            (Split (ToLower U (Trim line "\n".toList)) ',').head? = some "name".toList)) :
    processLine U ctx.filetype line = .ok none ∧
      loop U db ctx (line :: rest) trace = loop U db ctx rest trace := by
  have hp : processLine U ctx.filetype line = .ok none := by
    cases hc : HasPrefix line "#".toList with
    | true => exact processLine_comment U ctx.filetype line hc
    | false =>
      rw [processLine_not_comment U ctx.filetype line hc]
      unfold normalize
      rcases h with ⟨hft, hh⟩ | ⟨hft, hh⟩ | ⟨hft, hh⟩
      · rw [hft, fixLinelist_ancestry, index_of_head? _ _ hh]
        rfl
      · rw [hft, fixLinelist_ftdna, index_of_head? _ _ hh]
        rfl
      · rw [hft, fixLinelist_decodeme, index_of_head? _ _ hh]
        rfl
  exact ⟨hp, loop_skip U db ctx line rest trace hp⟩

theorem header_rows_skipped_witness :
    processLine asciiCase "ftdna-illumina".toList "\"RSID\",\"CHROMOSOME\"".toList = .ok none ∧
      loop asciiCase okStorage
          { genotype_id := "7".toList, user_id := "3".toList,
            filetype := "ftdna-illumina".toList, known_snps := [], known_user_snps := [] }
          ["\"RSID\",\"CHROMOSOME\"".toList] [Event.begin]
        = loop asciiCase okStorage
          { genotype_id := "7".toList, user_id := "3".toList,
            filetype := "ftdna-illumina".toList, known_snps := [], known_user_snps := [] }
          [] [Event.begin] :=
  header_rows_skipped asciiCase okStorage
    { genotype_id := "7".toList, user_id := "3".toList,
      filetype := "ftdna-illumina".toList, known_snps := [], known_user_snps := [] }
    "\"RSID\",\"CHROMOSOME\"".toList [] [Event.begin]
    (Or.inr (Or.inl ⟨rfl, by decide⟩))

/-- C8 (counterexample): in a `23andme` file whose first line is a comment of
70000 bytes, followed by a data line, the scanner stops at the comment: the
data line is never processed and the run issues `COMMIT` with no insert, while
the same file without the comment line issues both inserts. -/
theorem comment_lines_counterexample :
    runFile asciiCase okStorage
        { genotype_id := "7".toList, user_id := "3".toList, filetype := "23andme".toList,
          known_snps := [], known_user_snps := [] }
        (('#' :: List.replicate 69999 'x') ++ '\n' :: "rs1\t1\t5\tAA\n".toList)
      = { trace := [Event.begin, Event.commit, Event.vacuumSnps, Event.vacuumUserSnps],
          fatal := none } ∧
    runFile asciiCase okStorage
        { genotype_id := "7".toList, user_id := "3".toList, filetype := "23andme".toList,
          known_snps := [], known_user_snps := [] }
        "rs1\t1\t5\tAA\n".toList
      = { trace := [Event.begin,
            Event.insertSnp "rs1".toList "1".toList "5".toList,
            Event.insertUserSnp "AA".toList "7".toList "3".toList "rs1".toList,
            Event.commit, Event.vacuumSnps, Event.vacuumUserSnps],
          fatal := none } := by
  refine ⟨?_, by decide⟩
  have hno : '\n' ∉ ('#' :: List.replicate 69999 'x') := by
    intro h
    rcases List.mem_cons.mp h with h1 | h1
    · revert h1; decide
    · have h2 := List.eq_of_mem_replicate h1
      revert h2
      decide
  have hS : Split "rs1\t1\t5\tAA\n".toList '\n' = ["rs1\t1\t5\tAA".toList, []] := by decide
  have hlines : rawLines (('#' :: List.replicate 69999 'x') ++ '\n' :: "rs1\t1\t5\tAA\n".toList)
      = [('#' :: List.replicate 69999 'x'), "rs1\t1\t5\tAA".toList] := by
    have hg : ∀ a b : Str, [a, b, []].getLast? = some [] := fun _ _ => rfl
    unfold rawLines
    rw [Split_append_sep _ _ _ hno, hS, if_pos (hg _ _)]
    rfl
  rw [runFile_first_line_too_long asciiCase okStorage _ _ _ _ hlines
    (by rw [byteLen_cons, byteLen_replicate]; decide)]
  rfl

/-- C8 (amended): a line whose first character is `#` never reaches the
normaliser, whatever the filetype is (known or not): it yields no record and no
error, and the loop goes on with the trace unchanged.  For a file whose `#`
lines are all shorter than `MaxScanTokenSize` bytes, the run equals the run
over any file whose lines are the lines of the first with the `#` lines
removed. -/
theorem comment_lines_never_normalized (U : CaseTables) (db : Storage) (ctx : Context)
    (data data2 : Str) (line : Str) (rest : List Str) (trace : List Event)
    (h : HasPrefix line "#".toList = true)
    (hshort : ∀ l ∈ rawLines data, HasPrefix l "#".toList = true →
      byteLen l < MaxScanTokenSize)
    (hremoved : rawLines data2 = (rawLines data).filter (fun l => !HasPrefix l "#".toList)) :
    processLine U ctx.filetype line = .ok none ∧
      loop U db ctx (line :: rest) trace = loop U db ctx rest trace ∧
      runFile U db ctx data = runFile U db ctx data2 := by
  refine ⟨processLine_comment U ctx.filetype line h,
    loop_skip U db ctx line rest trace (processLine_comment U ctx.filetype line h), ?_⟩
  have htok : (scanTokens data).filter (fun l => !HasPrefix l "#".toList) = scanTokens data2 := by
    unfold scanTokens
    rw [hremoved, filter_map_dropCR, filter_takeWhile_comments _ _
      (fun l hl hc => decide_eq_true (hshort l hl hc))]
  unfold runFile run
  rw [loop_filter_comments U db ctx (scanTokens data) [Event.begin], htok]

theorem comment_lines_never_normalized_witness :
    processLine asciiCase "no such format".toList "# rsid\tchromosome".toList = .ok none ∧
      loop asciiCase okStorage
          { genotype_id := "7".toList, user_id := "3".toList,
            filetype := "23andme".toList, known_snps := [], known_user_snps := [] }
          ["# rsid\tchromosome".toList, "#".toList] []
        = loop asciiCase okStorage
          { genotype_id := "7".toList, user_id := "3".toList,
            filetype := "23andme".toList, known_snps := [], known_user_snps := [] }
          ["#".toList] [] ∧
      runFile asciiCase okStorage
          { genotype_id := "7".toList, user_id := "3".toList,
            filetype := "23andme".toList, known_snps := [], known_user_snps := [] }
          "#a\nrs1\t1\t5\tAA\n#b\n".toList
        = runFile asciiCase okStorage
          { genotype_id := "7".toList, user_id := "3".toList,
            filetype := "23andme".toList, known_snps := [], known_user_snps := [] }
          "rs1\t1\t5\tAA\n".toList :=
  comment_lines_never_normalized asciiCase okStorage
    { genotype_id := "7".toList, user_id := "3".toList,
      filetype := "23andme".toList, known_snps := [], known_user_snps := [] }
    "#a\nrs1\t1\t5\tAA\n#b\n".toList "rs1\t1\t5\tAA\n".toList
    "# rsid\tchromosome".toList ["#".toList] [] (by decide) (by decide) (by decide)

/-- C9: canonical record shape.  Whenever the normaliser yields a record, the
filetype is one of the six, the chromosome and the allele are their own
upper-casing and hold no letter `a`-`z`, and the name is non-empty if the
line's name column is (column 0, or column 2 for `23andme-exome-vcf`; for
`ftdna-illumina` the column is taken after the double quotes are removed).
The two facts used about the library's upper-casing of a character are that
applying it twice is applying it once and that it never yields `a`-`z`. -/
theorem canonical_record_shape (U : CaseTables) (filetype line : Str) (r : Record)
    (hidem : ∀ c, U.upper (U.upper c) = U.upper c)
    (hnl : ∀ c, (U.upper c).isLower = false)
    (h : normalize U filetype line = .ok (some r)) :
    filetype ∈ supportedFiletypes ∧
      ToUpper U r.chromosome = r.chromosome ∧ ToUpper U r.allele = r.allele ∧
      (∀ c ∈ r.chromosome, c.isLower = false) ∧ (∀ c ∈ r.allele, c.isLower = false) ∧
      (∀ col, nameColumn filetype line = some col → col ≠ [] → r.snp_name ≠ []) := by
  have hup : ∀ s : Str, ToUpper U (ToUpper U s) = ToUpper U s := by
    intro s
    unfold ToUpper
    rw [List.map_map]
    exact List.map_congr_left (fun c _ => hidem c)
  have hlow : ∀ s : Str, ∀ c ∈ ToUpper U s, c.isLower = false := by
    intro s c hc
    unfold ToUpper at hc
    obtain ⟨d, _, rfl⟩ := List.mem_map.mp hc
    exact hnl d
  have hsup : filetype ∈ supportedFiletypes := by
    by_contra hft
    rw [normalize_unknown U filetype line hft] at h
    cases h
  obtain ⟨ll, hfix, hasm⟩ := normalize_ok_inv U filetype line r h
  obtain ⟨a, b, c, d, ha, _, _, _, hr⟩ := assemble_ok_inv U ll r hasm
  subst hr
  exact ⟨hsup, hup b, hup d, hlow b, hlow d,
    fun col hcol hne => fixLinelist_name_nonempty U filetype line ll hfix col a hcol hne ha⟩

theorem canonical_record_shape_witness :
    "decodeme".toList ∈ supportedFiletypes ∧
      ToUpper asciiCase "X".toList = "X".toList ∧ ToUpper asciiCase "AG".toList = "AG".toList ∧
      (∀ c ∈ "X".toList, c.isLower = false) ∧ (∀ c ∈ "AG".toList, c.isLower = false) ∧
      (∀ col, nameColumn "decodeme".toList "rs5,a,x,77,+,ag".toList = some col → col ≠ [] →
        "rs5".toList ≠ []) :=
  canonical_record_shape asciiCase "decodeme".toList "rs5,a,x,77,+,ag".toList
    { snp_name := "rs5".toList, chromosome := "X".toList, position := "77".toList,
      allele := "AG".toList }
    asciiCase_upper_idem asciiCase_upper_not_lower (by decide)

/-- C10: the reconcile decision table.  With a storage that accepts the
statements, the events issued for a record `r` are exactly the row of the table
chosen by the two membership tests: the global insert first, if and only if the
name is not a known variant; then the user insert if the name is not known for
the user, and the no-op log line if it is.  With any storage the events issued
are a prefix of that row, so no line issues more than one insert of each kind.
Each of the four rows is reached by some snapshots and record. -/
theorem reconcile_decision_table (db : Storage) (ctx : Context) (r : Record)
    (trace : List Event) :
    ((∀ t e, db t e = true) →
        reconcile db ctx r trace
          = { trace := trace ++
                decisionTable (decide (r.snp_name ∈ ctx.known_snps))
                  (decide (r.snp_name ∈ ctx.known_user_snps))
                  (Event.insertSnp r.snp_name r.chromosome r.position)
                  (Event.insertUserSnp r.allele ctx.genotype_id ctx.user_id r.snp_name)
                  (Event.alreadyExists r.snp_name r.allele),
              fatal := none }) ∧
      (∃ ws, ws <+: decisionTable (decide (r.snp_name ∈ ctx.known_snps))
                  (decide (r.snp_name ∈ ctx.known_user_snps))
                  (Event.insertSnp r.snp_name r.chromosome r.position)
                  (Event.insertUserSnp r.allele ctx.genotype_id ctx.user_id r.snp_name)
                  (Event.alreadyExists r.snp_name r.allele) ∧
        (reconcile db ctx r trace).trace = trace ++ ws) ∧
      ∀ inK inU : Bool, ∃ (ctx2 : Context) (r2 : Record),
        decide (r2.snp_name ∈ ctx2.known_snps) = inK ∧
          decide (r2.snp_name ∈ ctx2.known_user_snps) = inU := by
  refine ⟨?_, ?_, ?_⟩
  · intro hdb
    by_cases hK : r.snp_name ∈ ctx.known_snps <;>
      by_cases hU : r.snp_name ∈ ctx.known_user_snps <;>
      simp [reconcile, exec, decisionTable, hK, hU, hdb]
  · by_cases hK : r.snp_name ∈ ctx.known_snps <;>
      by_cases hU : r.snp_name ∈ ctx.known_user_snps <;>
      by_cases hd : db trace (Event.insertSnp r.snp_name r.chromosome r.position) = true <;>
      simp [reconcile, exec, decisionTable, hK, hU, hd]
  · intro inK inU
    refine ⟨{ genotype_id := [], user_id := [], filetype := [],
              known_snps := if inK then [[]] else [],
              known_user_snps := if inU then [[]] else [] },
            { snp_name := [], chromosome := [], position := [], allele := [] }, ?_, ?_⟩
    · cases inK <;> simp
    · cases inU <;> simp

theorem reconcile_decision_table_witness :
    reconcile okStorage
        { genotype_id := "7".toList, user_id := "3".toList, filetype := "23andme".toList,
          known_snps := ["rs1".toList, "rs2".toList], known_user_snps := ["rs2".toList] }
        { snp_name := "rs1".toList, chromosome := "1".toList, position := "5".toList,
          allele := "AA".toList } [Event.begin]
      = { trace := [Event.begin,
            Event.insertUserSnp "AA".toList "7".toList "3".toList "rs1".toList],
          fatal := none } :=
  (reconcile_decision_table okStorage
    { genotype_id := "7".toList, user_id := "3".toList, filetype := "23andme".toList,
      known_snps := ["rs1".toList, "rs2".toList], known_user_snps := ["rs2".toList] }
    { snp_name := "rs1".toList, chromosome := "1".toList, position := "5".toList,
      allele := "AA".toList } [Event.begin]).1 (fun _ _ => rfl)

/-- C11: an `IYG` line with at least two tab-separated columns whose first
column starts neither with `MT` nor with `mt` normalises to the record with the
first column as name, chromosome `1`, position `1` and allele the upper-cased
second column; the same record comes out of every raw line without a leading
`#` that the loop lower-cases to such a line. -/
theorem iyg_without_mt (U : CaseTables) (line c0 c1 : Str) (rest : List Str)
    (hcols : Split line '\t' = c0 :: c1 :: rest)
    (hMT : HasPrefix c0 "MT".toList = false) (hmt : HasPrefix c0 "mt".toList = false) :
    normalize U "IYG".toList line
        = .ok (some { snp_name := c0, chromosome := "1".toList, position := "1".toList,
                      allele := ToUpper U c1 }) ∧
      ∀ raw : Str, HasPrefix raw "#".toList = false → ToLower U (Trim raw "\n".toList) = line →
        processLine U "IYG".toList raw
          = .ok (some { snp_name := c0, chromosome := "1".toList, position := "1".toList,
                        allele := ToUpper U c1 }) := by
  have hn := normalize_iyg_plain_cols U line c0 c1 rest hcols (by rw [hMT, hmt]; rfl)
  refine ⟨hn, ?_⟩
  intro raw hraw hlow
  rw [processLine_not_comment U _ raw hraw, hlow]
  exact hn

theorem iyg_without_mt_witness :
    processLine asciiCase "IYG".toList "rs1234\tag".toList
      = .ok (some { snp_name := "rs1234".toList, chromosome := "1".toList,
                    position := "1".toList, allele := "AG".toList }) :=
  (iyg_without_mt asciiCase "rs1234\tag".toList "rs1234".toList "ag".toList []
    (by decide) (by decide) (by decide)).2 "rs1234\tag".toList (by decide) (by decide)

/-- C15: an `ancestry` line with at least six tab-separated columns whose first
column is not `rsid` normalises to the record with name `col0`, chromosome
`upper(col1)`, position `col3` and allele `upper(col4 ++ col5)`; a line that
differs only in column 2 and in the columns after the sixth gives the same
record. -/
theorem ancestry_remap (U : CaseTables) (line c0 c1 c2 c3 c4 c5 : Str) (rest : List Str)
    (hcols : Split line '\t' = c0 :: c1 :: c2 :: c3 :: c4 :: c5 :: rest)
    (hh : c0 ≠ "rsid".toList) :
    normalize U "ancestry".toList line
        = .ok (some { snp_name := c0, chromosome := ToUpper U c1, position := c3,
                      allele := ToUpper U (c4 ++ c5) }) ∧
      ∀ (line2 d2 : Str) (rest2 : List Str),
        Split line2 '\t' = c0 :: c1 :: d2 :: c3 :: c4 :: c5 :: rest2 →
        normalize U "ancestry".toList line2 = normalize U "ancestry".toList line := by
  have hn := normalize_ancestry_cols U line c0 c1 c2 c3 c4 c5 rest hcols hh
  refine ⟨hn, ?_⟩
  intro line2 d2 rest2 h2
  rw [hn, normalize_ancestry_cols U line2 c0 c1 d2 c3 c4 c5 rest2 h2 hh]

theorem ancestry_remap_witness :
    normalize asciiCase "ancestry".toList "rs5\tx\tignored\t77\ta\tg".toList
      = .ok (some { snp_name := "rs5".toList, chromosome := "X".toList,
                    position := "77".toList, allele := "AG".toList }) :=
  (ancestry_remap asciiCase "rs5\tx\tignored\t77\ta\tg".toList "rs5".toList "x".toList
    "ignored".toList "77".toList "a".toList "g".toList [] (by decide) (by decide)).1

/-- C17: an `IYG` line with at least two tab-separated columns whose name (the
first column) starts with `MT` or `mt` normalises to a record with chromosome
`MT`, allele the upper-cased second column, and position the name with every
character of `A`-`Z` and `a`-`z` deleted and the others kept in order.  The
replace-by-`X`-then-delete-`X` code equals that plain filter on every name,
names with the letter `X` included. -/
theorem iyg_mitochondrial (U : CaseTables) (line c0 c1 : Str) (rest : List Str)
    (hcols : Split line '\t' = c0 :: c1 :: rest)
    (hmt : HasPrefix c0 "MT".toList = true ∨ HasPrefix c0 "mt".toList = true) :
    (∃ r, normalize U "IYG".toList line = .ok (some r) ∧
        r.chromosome = "MT".toList ∧ r.allele = ToUpper U c1 ∧
        r.position = deleteLetters c0) ∧
      (∀ name : Str, Replace (Map replace_letters name) 'X' [] = deleteLetters name) ∧
      ∀ raw : Str, HasPrefix raw "#".toList = false → ToLower U (Trim raw "\n".toList) = line →
        ∃ r, processLine U "IYG".toList raw = .ok (some r) ∧
          r.chromosome = "MT".toList ∧ r.allele = ToUpper U c1 ∧
          r.position = deleteLetters c0 := by
  have hor : (HasPrefix c0 "MT".toList || HasPrefix c0 "mt".toList) = true := by
    rcases hmt with h | h
    · rw [h]; rfl
    · rw [h]; exact Bool.or_true _
  have hn := normalize_iyg_mt_cols U line c0 c1 rest hcols hor
  refine ⟨⟨_, hn, rfl, rfl, replace_letters_filter c0⟩, replace_letters_filter, ?_⟩
  intro raw hraw hlow
  rw [processLine_not_comment U _ raw hraw, hlow]
  exact ⟨_, hn, rfl, rfl, replace_letters_filter c0⟩

theorem iyg_mitochondrial_witness :
    ∃ r, processLine asciiCase "IYG".toList "MT-T3027C\tA".toList = .ok (some r) ∧
      r.chromosome = "MT".toList ∧ r.allele = "A".toList ∧ r.position = "-3027".toList := by
  obtain ⟨r, h1, h2, h3, h4⟩ :=
    (iyg_mitochondrial asciiCase "mt-t3027c\ta".toList "mt-t3027c".toList "a".toList []
      (by decide) (Or.inr (by decide))).2.2 "MT-T3027C\tA".toList (by decide) (by decide)
  exact ⟨r, h1, h2, by rw [h3]; decide, by rw [h4]; decide⟩

/-- C12 (counterexample): a `23andme` file with the lines `rs1`, `rs1`, `rs2`,
where `rs1` is a known variant, `rs2` is not, and the user has seen neither,
issues one global insert (for `rs2`) and three user inserts, not two: the
repeated `rs1` line is inserted for the user again.  `COMMIT` is issued once. -/
theorem scenario_counterexample :
    run asciiCase okStorage
        { genotype_id := "7".toList, user_id := "3".toList, filetype := "23andme".toList,
          known_snps := ["rs1".toList], known_user_snps := [] }
        ["rs1\t1\t5\tAA".toList, "rs1\t1\t5\tAA".toList, "rs2\t2\t6\tCT".toList]
      = { trace := [Event.begin,
            Event.insertUserSnp "AA".toList "7".toList "3".toList "rs1".toList,
            Event.insertUserSnp "AA".toList "7".toList "3".toList "rs1".toList,
            Event.insertSnp "rs2".toList "2".toList "6".toList,
            Event.insertUserSnp "CT".toList "7".toList "3".toList "rs2".toList,
            Event.commit, Event.vacuumSnps, Event.vacuumUserSnps],
          fatal := none } ∧
    (run asciiCase okStorage
        { genotype_id := "7".toList, user_id := "3".toList, filetype := "23andme".toList,
          known_snps := ["rs1".toList], known_user_snps := [] }
        ["rs1\t1\t5\tAA".toList, "rs1\t1\t5\tAA".toList,
         "rs2\t2\t6\tCT".toList]).trace.countP isInsertUserSnp = 3 := by
  decide

/-- C12 (amended): for a `23andme` run over three lines that normalise to
records named A, A and B, with A a known variant, B not, neither known for the
user, and a storage that accepts every statement, the run issues, after
`BEGIN`, the user insert for the first line, the user insert for the second
line again, the global insert and the user insert for B, then `COMMIT` and the
two `VACUUM`s: one global insert, three user inserts, one `COMMIT`. -/
theorem scenario_three_lines (U : CaseTables) (db : Storage) (ctx : Context)
    (l1 l2 l3 : Str) (rA rA2 rB : Record)
    (hft : ctx.filetype = "23andme".toList)
    (h1 : processLine U ctx.filetype l1 = .ok (some rA))
    (h2 : processLine U ctx.filetype l2 = .ok (some rA2))
    (h3 : processLine U ctx.filetype l3 = .ok (some rB))
    (hdup : rA2.snp_name = rA.snp_name)
    (hAK : rA.snp_name ∈ ctx.known_snps) (hBK : rB.snp_name ∉ ctx.known_snps)
    (hAU : rA.snp_name ∉ ctx.known_user_snps) (hBU : rB.snp_name ∉ ctx.known_user_snps)
    (hdb : ∀ t e, db t e = true) :
    run U db ctx [l1, l2, l3]
        = { trace := [Event.begin,
              Event.insertUserSnp rA.allele ctx.genotype_id ctx.user_id rA.snp_name,
              Event.insertUserSnp rA2.allele ctx.genotype_id ctx.user_id rA2.snp_name,
              Event.insertSnp rB.snp_name rB.chromosome rB.position,
              Event.insertUserSnp rB.allele ctx.genotype_id ctx.user_id rB.snp_name,
              Event.commit, Event.vacuumSnps, Event.vacuumUserSnps],
            fatal := none } ∧
      (run U db ctx [l1, l2, l3]).trace.countP isInsertSnp = 1 ∧
      (run U db ctx [l1, l2, l3]).trace.countP isInsertUserSnp = 3 ∧
      (run U db ctx [l1, l2, l3]).trace.count Event.commit = 1 := by
  have hAK2 : rA2.snp_name ∈ ctx.known_snps := hdup ▸ hAK
  have hAU2 : rA2.snp_name ∉ ctx.known_user_snps := hdup ▸ hAU
  have hrun : run U db ctx [l1, l2, l3]
      = { trace := [Event.begin,
            Event.insertUserSnp rA.allele ctx.genotype_id ctx.user_id rA.snp_name,
            Event.insertUserSnp rA2.allele ctx.genotype_id ctx.user_id rA2.snp_name,
            Event.insertSnp rB.snp_name rB.chromosome rB.position,
            Event.insertUserSnp rB.allele ctx.genotype_id ctx.user_id rB.snp_name,
            Event.commit, Event.vacuumSnps, Event.vacuumUserSnps],
          fatal := none } := by
    have _ := hft
    simp [run, loop, h1, h2, h3, reconcile, exec, finish, hAK, hAK2, hBK, hAU, hAU2,
      hBU, hdb]
  rw [hrun]
  exact ⟨rfl, rfl, rfl, by simp [List.count_cons]⟩

theorem scenario_three_lines_witness :
    run asciiCase okStorage
        { genotype_id := "7".toList, user_id := "3".toList, filetype := "23andme".toList,
          known_snps := ["rs1".toList], known_user_snps := ["rs77".toList] }
        ["rs1\t1\t5\tAA".toList, "RS1\t1\t5\tAG".toList, "rs2\t2\t6\tCT".toList]
      = { trace := [Event.begin,
            Event.insertUserSnp "AA".toList "7".toList "3".toList "rs1".toList,
            Event.insertUserSnp "AG".toList "7".toList "3".toList "rs1".toList,
            Event.insertSnp "rs2".toList "2".toList "6".toList,
            Event.insertUserSnp "CT".toList "7".toList "3".toList "rs2".toList,
            Event.commit, Event.vacuumSnps, Event.vacuumUserSnps],
          fatal := none } :=
  (scenario_three_lines asciiCase okStorage
    { genotype_id := "7".toList, user_id := "3".toList, filetype := "23andme".toList,
      known_snps := ["rs1".toList], known_user_snps := ["rs77".toList] }
    "rs1\t1\t5\tAA".toList "RS1\t1\t5\tAG".toList "rs2\t2\t6\tCT".toList
    { snp_name := "rs1".toList, chromosome := "1".toList, position := "5".toList,
      allele := "AA".toList }
    { snp_name := "rs1".toList, chromosome := "1".toList, position := "5".toList,
      allele := "AG".toList }
    { snp_name := "rs2".toList, chromosome := "2".toList, position := "6".toList,
      allele := "CT".toList }
    rfl (by decide) (by decide) (by decide) rfl (by decide) (by decide) (by decide)
    (by decide) (fun _ _ => rfl)).1

/-- C14: missing columns are fatal, exactly.  For `23andme` and `ftdna-illumina`
(4 columns), `ancestry` and `decodeme` (6) and `IYG` (2), a line that is not a
header row normalises to a record if and only if its split has at least the
needed number of columns; with fewer columns the normaliser fails with the
index-out-of-range error (it is not a skip); and when there are enough
columns, any line with the same needed columns gives the same record, whatever
comes after them. -/
theorem missing_columns_fatal (U : CaseTables) (filetype line : Str)
    (hft : filetype ∈ ["23andme".toList, "ftdna-illumina".toList, "ancestry".toList,
      "decodeme".toList, "IYG".toList])
    (hhead : isHeader filetype line = false) :
    ((∃ r, normalize U filetype line = .ok (some r)) ↔
        neededColumns filetype ≤ (columns filetype line).length) ∧
      ((columns filetype line).length < neededColumns filetype →
        normalize U filetype line = .error Fatal.indexOutOfRange) ∧
      (neededColumns filetype ≤ (columns filetype line).length →
        ∀ line2, (columns filetype line2).take (neededColumns filetype)
            = (columns filetype line).take (neededColumns filetype) →
          normalize U filetype line2 = normalize U filetype line) := by
  refine ⟨⟨?_, ?_⟩, ?_, ?_⟩
  · rintro ⟨r, hr⟩
    by_contra hlt
    rw [normalize_short U filetype line hft hhead (Nat.lt_of_not_le hlt)] at hr
    cases hr
  · intro hlen
    obtain ⟨r, hr, _⟩ := normalize_long U filetype line hft hhead hlen
    exact ⟨r, hr⟩
  · exact normalize_short U filetype line hft hhead
  · intro hlen line2 h2
    obtain ⟨r, hr, hall⟩ := normalize_long U filetype line hft hhead hlen
    rw [hr, hall line2 h2]

theorem missing_columns_fatal_witness :
    normalize asciiCase "decodeme".toList "rs5,a,x,77,+".toList
      = .error Fatal.indexOutOfRange :=
  (missing_columns_fatal asciiCase "decodeme".toList "rs5,a,x,77,+".toList
    (by decide) (by decide)).2.1 (by decide)

/-- C16: `ftdna-illumina` reduces to `23andme`.  For a line without a tab whose
first comma column, once the double quotes are removed, is not `rsid`, the
normaliser under `ftdna-illumina` gives exactly what it gives under `23andme` on
the line with every double quote deleted and every comma replaced by a tab (the
same record or the same error).  No field of an `ftdna-illumina` record holds a
double quote; for the two upper-cased fields this uses that the library's
upper-casing maps no other character to the double quote. -/
theorem ftdna_reduces_to_23andme (U : CaseTables) (line : Str)
    (htab : '\t' ∉ line)
    (hh : (Split (Replace line (Char.ofNat 34) []) ',').head? ≠ some "rsid".toList)
    (hq : ∀ c, U.upper c = Char.ofNat 34 → c = Char.ofNat 34) :
    normalize U "ftdna-illumina".toList line
        = normalize U "23andme".toList (Replace (Replace line (Char.ofNat 34) []) ',' ['\t']) ∧
      ∀ r, normalize U "ftdna-illumina".toList line = .ok (some r) →
        Char.ofNat 34 ∉ r.snp_name ∧ Char.ofNat 34 ∉ r.chromosome ∧
        Char.ofNat 34 ∉ r.position ∧ Char.ofNat 34 ∉ r.allele := by
  have htab2 : '\t' ∉ Replace line (Char.ofNat 34) [] :=
    fun hc => htab (Replace_delete_chars line _ _ hc).1
  have hfix : fixLinelist U "ftdna-illumina".toList line
      = .ok (some (Split (Replace line (Char.ofNat 34) []) ',')) := by
    rw [fixLinelist_ftdna]
    cases hS : Split (Replace line (Char.ofNat 34) []) ',' with
    | nil => exact absurd hS (Split_ne_nil _ _)
    | cons c0 rest =>
      have hne : c0 ≠ "rsid".toList := by
        intro h0
        apply hh
        rw [hS, h0]
        rfl
      rw [index_cons_zero]
      simp only [Except.bind, if_neg hne]
  refine ⟨?_, ?_⟩
  · unfold normalize
    rw [hfix, fixLinelist_23andme, Split_comma_to_tab _ htab2]
  · intro r hr
    obtain ⟨ll, hll, hasm⟩ := normalize_ok_inv U _ _ r hr
    rw [hfix] at hll
    cases hll
    obtain ⟨a, b, c, d, ha, hb, hc, hd, hrec⟩ := assemble_ok_inv U _ r hasm
    have hcol : ∀ (i : Nat) (x : Str),
        (Split (Replace line (Char.ofNat 34) []) ',').get? i = some x → Char.ofNat 34 ∉ x := by
      intro i x hx hmem
      exact (Replace_delete_chars line _ _
        (Split_chars _ _ x (List.get?_mem hx) _ hmem)).2 rfl
    have hup : ∀ x : Str, Char.ofNat 34 ∉ x → Char.ofNat 34 ∉ ToUpper U x := by
      intro x hx hmem
      unfold ToUpper at hmem
      obtain ⟨e, he, heq⟩ := List.mem_map.mp hmem
      rw [hq e heq] at he
      exact hx he
    subst hrec
    exact ⟨hcol 0 a ha, hup b (hcol 1 b hb), hcol 2 c hc, hup d (hcol 3 d hd)⟩

theorem ftdna_reduces_to_23andme_witness :
    normalize asciiCase "ftdna-illumina".toList "\"rs5\",\"x\",\"77\",\"ag\"".toList
        = normalize asciiCase "23andme".toList "rs5\tx\t77\tag".toList ∧
      ∀ r, normalize asciiCase "ftdna-illumina".toList
          "\"rs5\",\"x\",\"77\",\"ag\"".toList = .ok (some r) →
        Char.ofNat 34 ∉ r.snp_name ∧ Char.ofNat 34 ∉ r.chromosome ∧
        Char.ofNat 34 ∉ r.position ∧ Char.ofNat 34 ∉ r.allele :=
  ftdna_reduces_to_23andme asciiCase "\"rs5\",\"x\",\"77\",\"ag\"".toList
    (by decide) (by decide) asciiCase_upper_quote

/-- C20: `buildDbConnectionString` returns the parameters `user=` and the user
name if it is non-empty, `password=` and the password if it is non-empty,
`port=` and the port if it is non-empty, then always `dbname=` and the database
name (empty or not) and `sslmode=disable`, in this order, with one space
between neighbours (the list function `List.intercalate`).  With all three
optional values non-empty the text is spelled out in full, and so it is with all
three empty.  The result ends with `sslmode=disable` and is built from between 2
and 5 parameters. -/
theorem buildDbConnectionString_spec (username password database port : Str) :
    buildDbConnectionString username password database port
        = List.intercalate " ".toList
            (connectionParamsSpec username password database port) ∧
      (username ≠ [] → password ≠ [] → port ≠ [] →
        buildDbConnectionString username password database port
          = "user=".toList ++ username ++ " ".toList ++ "password=".toList ++ password
              ++ " ".toList ++ "port=".toList ++ port ++ " ".toList
              ++ "dbname=".toList ++ database ++ " sslmode=disable".toList) ∧
      (username = [] → password = [] → port = [] →
        buildDbConnectionString username password database port
          = "dbname=".toList ++ database ++ " sslmode=disable".toList) ∧
      "sslmode=disable".toList <:+ buildDbConnectionString username password database port ∧
      2 ≤ (connectionParams username password database port).length ∧
      (connectionParams username password database port).length ≤ 5 ∧
      (connectionParams username password database port).length
        = 2 + (if username = [] then 0 else 1) + (if password = [] then 0 else 1)
            + (if port = [] then 0 else 1) := by
  refine ⟨?_, ?_, ?_, ?_, ?_, ?_, ?_⟩
  · unfold buildDbConnectionString
    rw [connectionParams_eq_spec, Join_eq_intercalate]
  · intro hu hp hport
    unfold buildDbConnectionString
    rw [connectionParams_eq_spec]
    unfold connectionParamsSpec
    rw [if_neg hu, if_neg hp, if_neg hport]
    simp [Join]
  · intro hu hp hport
    unfold buildDbConnectionString
    rw [connectionParams_eq_spec]
    unfold connectionParamsSpec
    rw [if_pos hu, if_pos hp, if_pos hport]
    simp [Join]
  · unfold buildDbConnectionString
    exact Join_append_last _ _ _
  · unfold connectionParams
    cases username <;> cases password <;> cases port <;> simp
  · unfold connectionParams
    cases username <;> cases password <;> cases port <;> simp
  · unfold connectionParams
    cases username <;> cases password <;> cases port <;> simp

theorem buildDbConnectionString_spec_witness :
    buildDbConnectionString "bob".toList [] "snpr".toList "5432".toList
        = "user=bob port=5432 dbname=snpr sslmode=disable".toList ∧
      buildDbConnectionString "bob".toList "pw".toList "snpr".toList "5432".toList
        = "user=bob password=pw port=5432 dbname=snpr sslmode=disable".toList ∧
      buildDbConnectionString [] [] [] [] = "dbname= sslmode=disable".toList :=
  ⟨(buildDbConnectionString_spec "bob".toList [] "snpr".toList "5432".toList).1.trans
      (by decide),
   ((buildDbConnectionString_spec "bob".toList "pw".toList "snpr".toList "5432".toList).2.1
      (by decide) (by decide) (by decide)).trans (by decide),
   ((buildDbConnectionString_spec [] [] [] []).2.2.1 rfl rfl rfl).trans (by decide)⟩

/-- C18: the name of every record that comes out of a file line holds no
upper-case ASCII letter, so a snapshot entry with an upper-case letter equals
the name of no record.  The fact used about the library's lower-casing of a
character is that it never yields `A`-`Z`. -/
theorem name_has_no_upper_case (U : CaseTables) (filetype raw : Str) (r : Record)
    (hlow : ∀ c, (U.lower c).isUpper = false)
    (h : processLine U filetype raw = .ok (some r)) :
    (∀ c ∈ r.snp_name, c.isUpper = false) ∧
      ∀ k : Str, (∃ c ∈ k, c.isUpper = true) → r.snp_name ≠ k := by
  have hchars : ∀ c ∈ r.snp_name, c.isUpper = false := by
    cases hc : HasPrefix raw "#".toList with
    | true =>
      rw [processLine_comment U filetype raw hc] at h
      cases h
    | false =>
      rw [processLine_not_comment U filetype raw hc] at h
      obtain ⟨ll, hfix, hasm⟩ := normalize_ok_inv U filetype _ r h
      obtain ⟨a, b, c, d, ha, _, _, _, hr⟩ := assemble_ok_inv U ll r hasm
      subst hr
      intro ch hch
      rcases fixLinelist_name_chars U filetype _ ll hfix a ha ch hch with hl | ⟨d2, hd⟩ | ⟨kv, hkv, hv⟩
      · unfold ToLower at hl
        obtain ⟨e, _, he⟩ := List.mem_map.mp hl
        rw [← he]
        exact hlow e
      · rw [hd]
        exact hlow d2
      · have hall : ∀ kv ∈ db_snp_snps, ∀ c ∈ kv.2, c.isUpper = false := by decide
        exact hall kv hkv ch hv
  refine ⟨hchars, ?_⟩
  rintro k ⟨c, hck, hup⟩ heq
  rw [← heq] at hck
  rw [hchars c hck] at hup
  cases hup

theorem name_has_no_upper_case_witness :
    (∀ c ∈ "rs5".toList, c.isUpper = false) ∧
      ∀ k : Str, (∃ c ∈ k, c.isUpper = true) → "rs5".toList ≠ k :=
  name_has_no_upper_case asciiCase "23andme".toList "RS5\tX\t77\tAG".toList
    { snp_name := "rs5".toList, chromosome := "X".toList, position := "77".toList,
      allele := "AG".toList }
    asciiCase_lower_not_upper (by decide)

/-- C19: in a `23andme-exome-vcf` line with a `GT` element, a `/`-separated part
of the genotype that is neither `0` nor `1` adds nothing to the allele and is
no error: the record's allele is the upper-cased concatenation of `col3` for
each `0`, `col4` for each `1` and nothing for any other part, so its length is
the number of `0` parts times the length of `col3` plus the number of `1` parts
times the length of `col4`.  When no part is `0` or `1` the allele is empty, and
the record is reconciled like any other: for a name in neither snapshot and a
storage that accepts the statements, both inserts are issued, the user insert
with the empty allele. -/
theorem vcf_other_genotype_parts (U : CaseTables) (line : Str)
    (c0 c1 c2 c3 c4 c5 c6 c7 c8 c9 : Str) (rest : List Str)
    (pre : List Str) (e : Str) (post : List Str) (g : Str)
    (hcols : Split line '\t' = c0 :: c1 :: c2 :: c3 :: c4 :: c5 :: c6 :: c7 :: c8 :: c9 :: rest)
    (hfmt : Split c8 ':' = pre ++ e :: post)
    (hpre : ∀ x ∈ pre, x ≠ "GT".toList ∧ x ≠ "gt".toList)
    (he : e = "GT".toList ∨ e = "gt".toList)
    (hg : (Split c9 ':').get? pre.length = some g) :
    ∃ r, normalize U "23andme-exome-vcf".toList line = .ok (some r) ∧
      r.allele = ToUpper U ((Split g '/').flatMap
        (fun p => if p = "0".toList then c3 else if p = "1".toList then c4 else [])) ∧
      r.allele.length
        = (Split g '/').count "0".toList * c3.length
          + (Split g '/').count "1".toList * c4.length ∧
      ((∀ p ∈ Split g '/', p ≠ "0".toList ∧ p ≠ "1".toList) →
        r.allele = [] ∧
        ∀ (db : Storage) (ctx : Context) (trace : List Event),
          (∀ t ev, db t ev = true) → r.snp_name ∉ ctx.known_snps →
          r.snp_name ∉ ctx.known_user_snps →
          reconcile db ctx r trace
            = { trace := trace ++
                  [Event.insertSnp r.snp_name r.chromosome r.position,
                   Event.insertUserSnp [] ctx.genotype_id ctx.user_id r.snp_name],
                fatal := none }) := by
  have hn := normalize_vcf_cols U line c0 c1 c2 c3 c4 c5 c6 c7 c8 c9 rest pre e post g
    hcols hfmt hpre he hg
  rw [genotype_parsed_general c3 c4 (Split g '/') [], List.nil_append] at hn
  refine ⟨_, hn, rfl, ?_, ?_⟩
  · show (ToUpper U _).length = _
    unfold ToUpper
    rw [List.length_map, allele_length]
  · intro hparts
    have hempty : ToUpper U ((Split g '/').flatMap
        (fun p => if p = "0".toList then c3 else if p = "1".toList then c4 else [])) = [] := by
      rw [allele_empty c3 c4 (Split g '/') hparts]
      rfl
    refine ⟨hempty, ?_⟩
    intro db ctx trace hdb hK hU
    simp only [] at hK hU
    rw [hempty]
    simp [reconcile, exec, hK, hU, hdb]

theorem vcf_other_genotype_parts_witness :
    ∃ r, normalize asciiCase "23andme-exome-vcf".toList
        "1\t100\trs5\ta\tg\t.\t.\t.\tgt\t./.".toList = .ok (some r) ∧
      r.allele = [] :=
  match vcf_other_genotype_parts asciiCase "1\t100\trs5\ta\tg\t.\t.\t.\tgt\t./.".toList
    "1".toList "100".toList "rs5".toList "a".toList "g".toList ".".toList ".".toList
    ".".toList "gt".toList "./.".toList [] [] "gt".toList [] "./.".toList
    (by decide) (by decide) (by decide) (by decide) (by decide) with
  | ⟨r, h1, _, _, h4⟩ => ⟨r, h1, (h4 (by decide)).1⟩

end Snpr
